import Mathlib

/-!
Verification of the Gunter geolocation service (src/app.py) against its
specification.  The development shallowly embeds the database lifecycle
manager (`GeoDBManager`), the name localizer (`filter_names_by_lang`) and
the geo-lookup HTTP handler as executable Lean functions.

Modelling conventions:
* Python `os.environ`-derived configuration strings are `Option String`;
  Python truthiness (None and "" are falsy) is `strTruthy`.
* The filesystem is the list of paths that currently exist (`FileSys`);
  `os.remove` inside the manager's cleanup helpers is modelled as always
  succeeding (the source catches and logs `OSError`).
* Network and database-open outcomes are an oracle (`FetchEnv`): whether
  the transfer completes, whether a half-written file was left behind by a
  failed transfer, whether `tarfile.open` succeeds, the member names of
  the downloaded archive, and whether `maxminddb.open_database` succeeds.
* An open `maxminddb.Reader` is represented by the path of its backing
  file; refresh functions additionally return a trace of the effects they
  performed, in order, so that ordering properties can be stated.
* Wall-clock timestamps are naturals; the timestamp `t` passed to a
  refresh stands for `datetime.now()` during that refresh.
-/

namespace Gunter

/-- Python truthiness of an optional string: `None` and `""` are falsy. -/
def strTruthy : Option String → Bool
  | none => false
  | some s => s ≠ ""

/-- The configuration fields of `Config` (src/app.py lines 22-42) that the
database manager reads.  `MAXMIND_DOWNLOAD_URL` is derived, see below. -/
structure Config where
  EXTERNAL_DB_URL : Option String
  CUSTOM_DB_FILE : Option String
  MAXMIND_LICENSE_KEY : Option String
  DB_DIR : String
deriving Repr, DecidableEq

/-- `Config.MAXMIND_DOWNLOAD_URL` (src/app.py lines 29-33): the MaxMind
download URL is built from the license key when the key is truthy,
otherwise it is `None`. -/
def Config.MAXMIND_DOWNLOAD_URL (c : Config) : Option String :=
  match c.MAXMIND_LICENSE_KEY with
  | some k =>
      if k ≠ "" then
        some ("https://download.maxmind.com/app/geoip_download?edition_id=GeoLite2-City&license_key=" ++ k ++ "&suffix=tar.gz")
      else none
  | none => none

/-- Manager state: the fields set in `GeoDBManager.__init__`
(src/app.py lines 59-64).  The open reader is represented by the path of
the file backing it. -/
structure ManagerState where
  mmdb_reader : Option String
  last_db_update_time : Option Nat
  current_db_version_tag : String
  current_db_file_path : Option String
deriving Repr, DecidableEq

/-- The state built by `GeoDBManager.__init__` (src/app.py lines 59-64). -/
def initialManagerState : ManagerState :=
  { mmdb_reader := none
    last_db_update_time := none
    current_db_version_tag := "N/A"
    current_db_file_path := none }

/-- The set of files currently on disk. -/
abbrev FileSys := List String

def fsAdd (fs : FileSys) (p : String) : FileSys :=
  if p ∈ fs then fs else p :: fs

def fsRemove (fs : FileSys) (p : String) : FileSys :=
  fs.filter (fun q => q ≠ p)

/-- Which of the mutually exclusive acquisition branches of
`download_and_load_database` runs. -/
inductive Strategy where
  | externalUrl (url : String)
  | localFile (path : String)
  | vendorArchive (key : String)
  | noStrategy
deriving Repr, DecidableEq

/-- Observable effects performed by a refresh, in program order. -/
inductive Event where
  | strategy (s : Strategy)
  | download (path : String)
  | extract (member : String) (dest : String)
  | closeDb (path : String)
  | openDb (path : String)
  | removeFile (path : String)
  | logError
deriving Repr, DecidableEq

/-- Oracle for the fallible external steps of one refresh. -/
structure FetchEnv where
  downloadOk : Bool
  leftoverCreated : Bool
  archiveOk : Bool
  members : List String
  openOk : Bool
deriving Repr

/-- Result of running a refresh: the new manager state, the new
filesystem, and the trace of effects. -/
structure RefreshResult where
  state : ManagerState
  fs : FileSys
  trace : List Event
deriving Repr

/-- Characters following the first scheme marker `://`, if present. -/
def afterSchemeMarker : List Char → Option (List Char)
  | ':' :: '/' :: '/' :: rest => some rest
  | _ :: cs => afterSchemeMarker cs
  | [] => none

/-- Characters starting at the first slash, or nothing if there is none. -/
def fromFirstSlash : List Char → List Char
  | [] => []
  | '/' :: rest => '/' :: rest
  | _ :: cs => fromFirstSlash cs

/-- The path component of a URL, modelling `urlparse(url).path` for the
http(s)/ftp(s) URLs the source handles: everything from the first slash
after the scheme and authority. -/
def urlPathOf (url : String) : String :=
  String.mk (fromFirstSlash ((afterSchemeMarker url.data).getD url.data))

/-- The characters after the last slash. -/
def lastComponent (cs : List Char) : List Char :=
  (cs.reverse.takeWhile (fun ch => ch ≠ '/')).reverse

/-- The extension (with dot) of the last path component, modelling
`os.path.splitext(p)[-1]`: leading dots of the base name do not start an
extension. -/
def splitextExt (p : String) : String :=
  let base := lastComponent p.data
  let trimmed := base.dropWhile (fun ch => ch = '.')
  if trimmed.contains '.' then
    String.mk ('.' :: (trimmed.reverse.takeWhile (fun ch => ch ≠ '.')).reverse)
  else ""

/-- File name chosen for an external download (src/app.py lines 103-106):
`external-<timestamp><ext>` under `DB_DIR`, where `<ext>` is the URL
path's extension or `.mmdb`. -/
def externalFilePath (c : Config) (t : Nat) : String :=
  let e := splitextExt (urlPathOf (c.EXTERNAL_DB_URL.getD ""))
  c.DB_DIR ++ "/external-" ++ toString t ++ (if e = "" then ".mmdb" else e)

/-- Archive path for the vendor strategy (src/app.py lines 174-177). -/
def vendorArchivePath (c : Config) (t : Nat) : String :=
  c.DB_DIR ++ "/GeoLite2-City-" ++ toString t ++ ".tar.gz"

/-- Extraction target for the vendor strategy (src/app.py lines 195-197). -/
def vendorMmdbPath (c : Config) (t : Nat) : String :=
  c.DB_DIR ++ "/GeoLite2-City-" ++ toString t ++ ".mmdb"

/-- Python `str.endswith`, over the character lists of the strings. -/
def endsWithStr (s suf : String) : Bool := suf.data.isSuffixOf s.data

/-- `GeoDBManager._cleanup_old_db_files` (src/app.py lines 66-81): remove
the previously active file when it is truthy, different from the new file
and still on disk. -/
def cleanup_old_db_files (oldPath : Option String) (newPath : String) (fs : FileSys) :
    FileSys × List Event :=
  match oldPath with
  | some old =>
      if old ≠ "" ∧ old ≠ newPath ∧ old ∈ fs then
        (fsRemove fs old, [Event.removeFile old])
      else (fs, [])
  | none => (fs, [])

/-- `GeoDBManager._cleanup_failed_download` (src/app.py lines 83-90):
remove the given path if it exists. -/
def cleanup_failed_download (p : String) (fs : FileSys) : FileSys × List Event :=
  if p ∈ fs then (fsRemove fs p, [Event.removeFile p]) else (fs, [])

/-- Branch 1 of `download_and_load_database` (src/app.py lines 100-149):
the external-URL strategy.  On a completed transfer the file appears on
disk; then the old reader (if any) is closed, the new file is opened, the
load time is set, the old file is removed and the active path updated.
Any exception leads to the `except` block: the reader is dropped and the
freshly named file is removed if present. -/
def refreshExternal (c : Config) (st : ManagerState) (fs : FileSys) (env : FetchEnv)
    (t : Nat) : RefreshResult :=
  let url := c.EXTERNAL_DB_URL.getD ""
  let newPath := externalFilePath c t
  if env.downloadOk then
    let fs1 := fsAdd fs newPath
    let closeTr : List Event :=
      match st.mmdb_reader with
      | some old => [Event.closeDb old]
      | none => []
    if env.openOk then
      let stMid := { st with mmdb_reader := some newPath, last_db_update_time := some t }
      let cl := cleanup_old_db_files stMid.current_db_file_path newPath fs1
      { state := { stMid with current_db_file_path := some newPath }
        fs := cl.1
        trace := [Event.strategy (Strategy.externalUrl url), Event.download newPath] ++
          closeTr ++ [Event.openDb newPath] ++ cl.2 }
    else
      let cl := cleanup_failed_download newPath fs1
      { state := { st with mmdb_reader := none }
        fs := cl.1
        trace := [Event.strategy (Strategy.externalUrl url), Event.download newPath] ++
          closeTr ++ [Event.logError] ++ cl.2 }
  else
    let fs1 := if env.leftoverCreated then fsAdd fs newPath else fs
    let cl := cleanup_failed_download newPath fs1
    { state := { st with mmdb_reader := none }
      fs := cl.1
      trace := [Event.strategy (Strategy.externalUrl url), Event.logError] ++ cl.2 }

/-- Branch 2 of `download_and_load_database` (src/app.py lines 152-165):
the local custom file strategy.  The old reader is closed, the configured
path is opened; on success load time and active path are updated; on
failure the reader is dropped and nothing is removed. -/
def refreshLocal (c : Config) (st : ManagerState) (fs : FileSys) (env : FetchEnv)
    (t : Nat) : RefreshResult :=
  let p := c.CUSTOM_DB_FILE.getD ""
  let closeTr : List Event :=
    match st.mmdb_reader with
    | some old => [Event.closeDb old]
    | none => []
  if env.openOk then
    { state :=
        { st with
          mmdb_reader := some p
          last_db_update_time := some t
          current_db_file_path := some p }
      fs := fs
      trace := [Event.strategy (Strategy.localFile p)] ++ closeTr ++ [Event.openDb p] }
  else
    { state := { st with mmdb_reader := none }
      fs := fs
      trace := [Event.strategy (Strategy.localFile p)] ++ closeTr ++ [Event.logError] }

/-- Branch 3 of `download_and_load_database` (src/app.py lines 168-216):
the vendor-archive strategy.  The archive is downloaded, the first member
whose name ends with `.mmdb` is extracted next to it (no member raises),
the old reader is closed, the extracted file is opened, the load time is
set, the old file removed and the active path updated.  Any exception
drops the reader and removes the archive path if it exists; note that the
`except` block never removes the extracted file, and the success path
never removes the archive. -/
def refreshVendor (c : Config) (st : ManagerState) (fs : FileSys) (env : FetchEnv)
    (t : Nat) : RefreshResult :=
  let key := c.MAXMIND_LICENSE_KEY.getD ""
  let tarPath := vendorArchivePath c t
  let tr0 : List Event := [Event.strategy (Strategy.vendorArchive key)]
  if env.downloadOk then
    let fs1 := fsAdd fs tarPath
    let tr1 := tr0 ++ [Event.download tarPath]
    if env.archiveOk then
      match env.members.find? (fun m => endsWithStr m ".mmdb") with
      | some member =>
          let mPath := vendorMmdbPath c t
          let fs2 := fsAdd fs1 mPath
          let tr2 := tr1 ++ [Event.extract member mPath]
          let closeTr : List Event :=
            match st.mmdb_reader with
            | some old => [Event.closeDb old]
            | none => []
          if env.openOk then
            let stMid := { st with mmdb_reader := some mPath, last_db_update_time := some t }
            let cl := cleanup_old_db_files stMid.current_db_file_path mPath fs2
            { state := { stMid with current_db_file_path := some mPath }
              fs := cl.1
              trace := tr2 ++ closeTr ++ [Event.openDb mPath] ++ cl.2 }
          else
            let cl := cleanup_failed_download tarPath fs2
            { state := { st with mmdb_reader := none }
              fs := cl.1
              trace := tr2 ++ closeTr ++ [Event.logError] ++ cl.2 }
      | none =>
          let cl := cleanup_failed_download tarPath fs1
          { state := { st with mmdb_reader := none }
            fs := cl.1
            trace := tr1 ++ [Event.logError] ++ cl.2 }
    else
      let cl := cleanup_failed_download tarPath fs1
      { state := { st with mmdb_reader := none }
        fs := cl.1
        trace := tr1 ++ [Event.logError] ++ cl.2 }
  else
    let fs1 := if env.leftoverCreated then fsAdd fs tarPath else fs
    let cl := cleanup_failed_download tarPath fs1
    { state := { st with mmdb_reader := none }
      fs := cl.1
      trace := tr0 ++ [Event.logError] ++ cl.2 }

/-- Branch 4 of `download_and_load_database` (src/app.py lines 217-220):
no strategy configured, an error is logged and the reader dropped. -/
def refreshNone (st : ManagerState) (fs : FileSys) : RefreshResult :=
  { state := { st with mmdb_reader := none }
    fs := fs
    trace := [Event.strategy Strategy.noStrategy, Event.logError] }

/-- `GeoDBManager.download_and_load_database` (src/app.py lines 92-220):
the four acquisition branches are tried in source order, guarded by
Python truthiness of the configuration fields. -/
def download_and_load_database (c : Config) (st : ManagerState) (fs : FileSys)
    (env : FetchEnv) (t : Nat) : RefreshResult :=
  if strTruthy c.EXTERNAL_DB_URL then refreshExternal c st fs env t
  else if strTruthy c.CUSTOM_DB_FILE then refreshLocal c st fs env t
  else if strTruthy c.MAXMIND_LICENSE_KEY && strTruthy (Config.MAXMIND_DOWNLOAD_URL c) then
    refreshVendor c st fs env t
  else refreshNone st fs

/-- `GeoDBManager.check_for_new_release_and_update` (src/app.py lines
222-241): skipped for a custom local file; re-runs
`download_and_load_database` for the external-URL and vendor strategies;
otherwise a no-op. -/
def check_for_new_release_and_update (c : Config) (st : ManagerState) (fs : FileSys)
    (env : FetchEnv) (t : Nat) : RefreshResult :=
  if strTruthy c.CUSTOM_DB_FILE then { state := st, fs := fs, trace := [] }
  else if strTruthy c.EXTERNAL_DB_URL ||
      (strTruthy c.MAXMIND_LICENSE_KEY && strTruthy (Config.MAXMIND_DOWNLOAD_URL c)) then
    download_and_load_database c st fs env t
  else { state := st, fs := fs, trace := [] }

/-- The acquisition strategy the configuration selects, with the fixed
precedence external URL, then local file, then vendor archive, then
none. -/
def selectStrategy (c : Config) : Strategy :=
  if strTruthy c.EXTERNAL_DB_URL then Strategy.externalUrl (c.EXTERNAL_DB_URL.getD "")
  else if strTruthy c.CUSTOM_DB_FILE then Strategy.localFile (c.CUSTOM_DB_FILE.getD "")
  else if strTruthy c.MAXMIND_LICENSE_KEY then
    Strategy.vendorArchive (c.MAXMIND_LICENSE_KEY.getD "")
  else Strategy.noStrategy

/-! ### The dynamic record values returned by the database

Records returned by `maxminddb.Reader.get` are dynamic Python values:
nested dictionaries (string-keyed, insertion-ordered, unique keys) and
lists over scalars. -/

/-- Dynamic Python value as handed around by the lookup path.  Numbers are
modelled as integers; none of the verified properties depends on float
arithmetic. -/
inductive Json where
  | null
  | bool (b : Bool)
  | num (n : Int)
  | str (s : String)
  | arr (elems : List Json)
  | obj (fields : List (String × Json))
deriving Repr

/-- Python truthiness of a dynamic value. -/
def truthyJ : Json → Bool
  | Json.null => false
  | Json.bool b => b
  | Json.num n => n ≠ 0
  | Json.str s => s ≠ ""
  | Json.arr xs => !xs.isEmpty
  | Json.obj fs => !fs.isEmpty

/-- Python truthiness of an optional dynamic value (`None` is falsy). -/
def truthyO : Option Json → Bool
  | none => false
  | some v => truthyJ v

/-- Python `x or y` over optional dynamic values: keep `x` when truthy,
otherwise evaluate to `y`. -/
def pyOr (x y : Option Json) : Option Json :=
  match x with
  | some v => if truthyJ v then some v else y
  | none => y

/-- Python `d[k] = v` on an insertion-ordered dictionary: replace in place
when the key exists, otherwise append. -/
def dictInsert (fields : List (String × Json)) (k : String) (v : Json) :
    List (String × Json) :=
  if fields.any (fun kv => kv.1 == k) then
    fields.map (fun kv => if kv.1 == k then (kv.1, v) else kv)
  else fields ++ [(k, v)]

/-- The name chosen by `filter_names_by_lang` (src/app.py lines 338-342):
`names.get(lang_code) or names.get(fallback_lang) or next(iter(names.values()), None)`. -/
def selectedName (names : List (String × Json)) (lang fb : String) : Option Json :=
  pyOr (names.lookup lang) (pyOr (names.lookup fb) (names.head?.map Prod.snd))


/-- `filter_names_by_lang` (src/app.py lines 328-357).  A dictionary whose
`"names"` entry is itself a dictionary is rebuilt without `"names"`, the
remaining values processed recursively, and a `"name"` entry is set to the
selected name when that name is truthy.  Every other dictionary and every
list is processed recursively; scalars are returned unchanged. -/
def filter_names_by_lang (lang : String) (fb : String := "en") : Json → Json
  | Json.obj fields =>
      match fields.lookup "names" with
      | some (Json.obj names) =>
          let sel := selectedName names lang fb
          let base := ((fields.filter (fun kv => kv.1 ≠ "names")).attach.map
            (fun kv => (kv.1.1, filter_names_by_lang lang fb kv.1.2)))
          match sel with
          | some v => if truthyJ v then Json.obj (dictInsert base "name" v) else Json.obj base
          | none => Json.obj base
      | _ =>
          Json.obj (fields.attach.map (fun kv => (kv.1.1, filter_names_by_lang lang fb kv.1.2)))
  | Json.arr xs => Json.arr (xs.attach.map (fun x => filter_names_by_lang lang fb x.1))
  | Json.null => Json.null
  | Json.bool b => Json.bool b
  | Json.num n => Json.num n
  | Json.str s => Json.str s
termination_by j => sizeOf j
decreasing_by
  all_goals simp_wf
  · have hm : ((kv.1.1, kv.1.2) ∈ fields) := by
      have := List.mem_of_mem_filter kv.2
      simpa using this
    have h1 := List.sizeOf_lt_of_mem hm
    have h2 : sizeOf ((kv.1.1, kv.1.2) : String × Json) =
        1 + sizeOf kv.1.1 + sizeOf kv.1.2 := rfl
    have h3 : 0 < sizeOf kv.1.1 := by
      cases kv.1.1 with
      | mk data => simp [String.mk.sizeOf_spec]
    omega
  · have hm : ((kv.1.1, kv.1.2) ∈ fields) := by simpa using kv.2
    have h1 := List.sizeOf_lt_of_mem hm
    have h2 : sizeOf ((kv.1.1, kv.1.2) : String × Json) =
        1 + sizeOf kv.1.1 + sizeOf kv.1.2 := rfl
    have h3 : 0 < sizeOf kv.1.1 := by
      cases kv.1.1 with
      | mk data => simp [String.mk.sizeOf_spec]
    omega
  · have h1 := List.sizeOf_lt_of_mem x.2
    omega


/-- Name resolution following the specification text: the requested
language code, else the fallback language, else the first-encountered
available name, else nothing; an entry holding a falsy value counts as
absent (the falsy-handling edge case of the localizer). -/
def resolveNameSpec (names : List (String × Json)) (lang fb : String) : Option Json :=
  if truthyO (names.lookup lang) then names.lookup lang
  else if truthyO (names.lookup fb) then names.lookup fb
  else if truthyO (names.head?.map Prod.snd) then names.head?.map Prod.snd
  else none

/-! ### The geo-lookup request handler -/

/-- Outcome of `GeoLookup.get` (src/app.py lines 523-584), restricted to
the database part: WHOIS enrichment and the `database_info` metadata the
handler attaches to a successful body are external collaborators outside
this model. -/
inductive GeoResult where
  | unavailable
  | badRequest
  | notFound
  | ok (body : Json)
deriving Repr

/-- HTTP status code of each outcome, from the handler's `abort` calls and
route documentation (src/app.py lines 508-513, 525, 546, 554). -/
def statusCode : GeoResult → Nat
  | GeoResult.unavailable => 503
  | GeoResult.badRequest => 400
  | GeoResult.notFound => 404
  | GeoResult.ok _ => 200

/-- `GeoLookup.get` (src/app.py lines 523-584).  The open reader is a
point-lookup function from IP strings to optional records; `validIp`
tells whether `ipaddress.ip_address` accepts the raw input, and
`resolved` is the result of `socket.gethostbyname` for a non-IP input.
No reader means 503; a failed domain resolution means 400; a record that
is `None` or falsy means 404; otherwise the record is localized for the
requested language. -/
def geoLookupGet (reader : Option (String → Option Json)) (validIp : Bool)
    (resolved : Option String) (ip : String) (lang : String) : GeoResult :=
  match reader with
  | none => GeoResult.unavailable
  | some get =>
      let ipR := if validIp then some ip else resolved
      match ipR with
      | none => GeoResult.badRequest
      | some ip2 =>
          match get ip2 with
          | none => GeoResult.notFound
          | some record =>
              if truthyJ record then GeoResult.ok (filter_names_by_lang lang "en" record)
              else GeoResult.notFound

/-- Recognizes open-handle events in a trace. -/
def isOpenEvent : Event → Bool
  | Event.openDb _ => true
  | _ => false

/-- Recognizes close-handle events in a trace. -/
def isCloseEvent : Event → Bool
  | Event.closeDb _ => true
  | _ => false

/-! ### Concrete fixtures for counterexamples and witnesses -/

/-- A configuration with only the external database URL set. -/
def extConfig : Config :=
  { EXTERNAL_DB_URL := some "http://x/db.mmdb"
    CUSTOM_DB_FILE := none
    MAXMIND_LICENSE_KEY := none
    DB_DIR := "/data" }

/-- A configuration with only the MaxMind license key set. -/
def keyConfig : Config :=
  { EXTERNAL_DB_URL := none
    CUSTOM_DB_FILE := none
    MAXMIND_LICENSE_KEY := some "K"
    DB_DIR := "/data" }

/-- A manager that has already loaded `/data/old.mmdb` successfully. -/
def loadedState : ManagerState :=
  { mmdb_reader := some "/data/old.mmdb"
    last_db_update_time := some 0
    current_db_version_tag := "N/A"
    current_db_file_path := some "/data/old.mmdb" }

/-- Oracle in which every external step succeeds. -/
def envAllOk : FetchEnv :=
  { downloadOk := true
    leftoverCreated := false
    archiveOk := true
    members := ["GeoLite2-City_X/GeoLite2-City.mmdb"]
    openOk := true }

/-- Oracle in which the network transfer fails without leaving a file. -/
def envDlFail : FetchEnv :=
  { downloadOk := false
    leftoverCreated := false
    archiveOk := true
    members := ["GeoLite2-City_X/GeoLite2-City.mmdb"]
    openOk := true }

/-- Oracle in which the transfer succeeds but opening the new database
file fails. -/
def envOpenFail : FetchEnv :=
  { downloadOk := true
    leftoverCreated := false
    archiveOk := true
    members := ["GeoLite2-City_X/GeoLite2-City.mmdb"]
    openOk := false }

/-- The claimed ManagerState invariant: the active file path names the
file backing the active handle, or both are null. -/
def managerPathInv (st : ManagerState) : Prop :=
  (∃ p, st.mmdb_reader = some p ∧ st.current_db_file_path = some p) ∨
  (st.mmdb_reader = none ∧ st.current_db_file_path = none)

/-- Keep a value only when it is truthy, as the localizer's final
`if selected_name:` guard does. -/
def truthyFilter : Option Json → Option Json
  | some v => if truthyJ v then some v else none
  | none => none

/-- A record as the City database returns: a city with German and English
names and an unrelated field. -/
def cityFields : List (String × Json) :=
  [("names", Json.obj [("en", Json.str "Town"), ("de", Json.str "Stadt")]),
    ("zip", Json.str "1")]

/-- The names dictionary inside `cityFields`. -/
def cityNames : List (String × Json) :=
  [("en", Json.str "Town"), ("de", Json.str "Stadt")]

/-- A names dictionary whose only entry, under `"de"`, is the empty
string. -/
def falsyNames : List (String × Json) := [("de", Json.str "")]

/-- A mapping holding only that names dictionary. -/
def falsyFields : List (String × Json) := [("names", Json.obj falsyNames)]

/-! ### Lemmas about the name localizer -/

theorem attach_map_pair (l : List (String × Json)) (f : Json → Json) :
    (l.attach.map (fun kv => (kv.1.1, f kv.1.2))) = l.map (fun kv => (kv.1, f kv.2)) := by
  rw [← List.attach_map_coe l (fun kv => (kv.1, f kv.2))]

/-- Unfolding equation for the localizer on a dictionary with a
dictionary-valued `"names"` entry. -/
theorem filter_names_obj_names (lang fb : String) (fields names : List (String × Json))
    (h : fields.lookup "names" = some (Json.obj names)) :
    filter_names_by_lang lang fb (Json.obj fields) =
      (let base := (fields.filter (fun kv => kv.1 ≠ "names")).map
        (fun kv => (kv.1, filter_names_by_lang lang fb kv.2))
      match selectedName names lang fb with
      | some v => if truthyJ v then Json.obj (dictInsert base "name" v) else Json.obj base
      | none => Json.obj base) := by
  rw [filter_names_by_lang]
  simp only [h, attach_map_pair]

/-- Unfolding equation for the localizer on a dictionary without a
dictionary-valued `"names"` entry. -/
theorem filter_names_obj_plain (lang fb : String) (fields : List (String × Json))
    (h : ∀ names, fields.lookup "names" ≠ some (Json.obj names)) :
    filter_names_by_lang lang fb (Json.obj fields) =
      Json.obj (fields.map (fun kv => (kv.1, filter_names_by_lang lang fb kv.2))) := by
  rw [filter_names_by_lang]
  rcases hl : fields.lookup "names" with _ | v
  · simp only [hl, attach_map_pair]
  · cases v with
    | obj names => exact absurd hl (h names)
    | null => simp only [hl, attach_map_pair]
    | bool b => simp only [hl, attach_map_pair]
    | num n => simp only [hl, attach_map_pair]
    | str s => simp only [hl, attach_map_pair]
    | arr xs => simp only [hl, attach_map_pair]

/-- Unfolding equation for the localizer on a list. -/
theorem filter_names_arr (lang fb : String) (xs : List Json) :
    filter_names_by_lang lang fb (Json.arr xs) =
      Json.arr (xs.map (filter_names_by_lang lang fb)) := by
  rw [filter_names_by_lang]
  rw [← List.attach_map_coe xs (filter_names_by_lang lang fb)]

/-! ### Auxiliary lemmas about the filesystem model -/

theorem mem_fsAdd_of_mem {fs : FileSys} {p : String} (q : String) (h : p ∈ fs) :
    p ∈ fsAdd fs q := by
  unfold fsAdd
  split
  · exact h
  · exact List.mem_cons_of_mem q h

theorem mem_fsAdd_self (fs : FileSys) (p : String) : p ∈ fsAdd fs p := by
  unfold fsAdd
  split
  · assumption
  · exact List.mem_cons_self p fs

theorem mem_fsRemove_of_ne {fs : FileSys} {p q : String} (h : p ∈ fs) (hne : p ≠ q) :
    p ∈ fsRemove fs q := by
  unfold fsRemove
  exact List.mem_filter.mpr ⟨h, by simp [hne]⟩

theorem not_mem_fsRemove (fs : FileSys) (p : String) : p ∉ fsRemove fs p := by
  unfold fsRemove
  intro h
  have := (List.mem_filter.mp h).2
  simp at this

theorem mem_cleanup_failed_of_ne {fs : FileSys} {p q : String} (h : p ∈ fs) (hne : p ≠ q) :
    p ∈ (cleanup_failed_download q fs).1 := by
  unfold cleanup_failed_download
  split
  · exact mem_fsRemove_of_ne h hne
  · exact h

theorem not_mem_cleanup_failed (fs : FileSys) (p : String) :
    p ∉ (cleanup_failed_download p fs).1 := by
  unfold cleanup_failed_download
  split
  · exact not_mem_fsRemove fs p
  · assumption

theorem mem_cleanup_old_of_ne {fs : FileSys} {p : String} {oldPath : Option String}
    (newPath : String) (h : p ∈ fs) (hne : oldPath ≠ some p) :
    p ∈ (cleanup_old_db_files oldPath newPath fs).1 := by
  unfold cleanup_old_db_files
  rcases oldPath with _ | old
  · exact h
  · by_cases hc : old ≠ "" ∧ old ≠ newPath ∧ old ∈ fs
    · simp only [if_pos hc]
      exact mem_fsRemove_of_ne h (fun heq => hne (by rw [heq]))
    · simp only [if_neg hc]
      exact h

theorem mem_cleanup_old_trace {oldPath : Option String} {newPath : String} {fs : FileSys}
    {e : Event} (h : e ∈ (cleanup_old_db_files oldPath newPath fs).2) :
    ∃ q, e = Event.removeFile q := by
  unfold cleanup_old_db_files at h
  split at h
  · rename_i old
    split at h
    · simp at h
      exact ⟨old, h⟩
    · simp at h
  · simp at h

theorem mem_cleanup_failed_trace {p : String} {fs : FileSys} {e : Event}
    (h : e ∈ (cleanup_failed_download p fs).2) : ∃ q, e = Event.removeFile q := by
  unfold cleanup_failed_download at h
  split at h
  · simp at h
    exact ⟨p, h⟩
  · simp at h

/-! ### Branch equations for the refresh functions -/

theorem refreshExternal_eq_success (c : Config) (st : ManagerState) (fs : FileSys)
    (env : FetchEnv) (t : Nat) (hd : env.downloadOk = true) (ho : env.openOk = true) :
    refreshExternal c st fs env t =
      (let newPath := externalFilePath c t
      let cl := cleanup_old_db_files st.current_db_file_path newPath (fsAdd fs newPath)
      { state :=
          { st with
            mmdb_reader := some newPath
            last_db_update_time := some t
            current_db_file_path := some newPath }
        fs := cl.1
        trace := [Event.strategy (Strategy.externalUrl (c.EXTERNAL_DB_URL.getD "")),
            Event.download newPath] ++
          (match st.mmdb_reader with
            | some old => [Event.closeDb old]
            | none => []) ++ [Event.openDb newPath] ++ cl.2 }) := by
  simp only [refreshExternal, hd, ho, if_true]

theorem refreshExternal_eq_openFail (c : Config) (st : ManagerState) (fs : FileSys)
    (env : FetchEnv) (t : Nat) (hd : env.downloadOk = true) (ho : env.openOk = false) :
    refreshExternal c st fs env t =
      (let newPath := externalFilePath c t
      let cl := cleanup_failed_download newPath (fsAdd fs newPath)
      { state := { st with mmdb_reader := none }
        fs := cl.1
        trace := [Event.strategy (Strategy.externalUrl (c.EXTERNAL_DB_URL.getD "")),
            Event.download newPath] ++
          (match st.mmdb_reader with
            | some old => [Event.closeDb old]
            | none => []) ++ [Event.logError] ++ cl.2 }) := by
  simp only [refreshExternal, hd, ho, if_true, Bool.false_eq_true, if_false]

theorem refreshExternal_eq_dlFail (c : Config) (st : ManagerState) (fs : FileSys)
    (env : FetchEnv) (t : Nat) (hd : env.downloadOk = false) :
    refreshExternal c st fs env t =
      (let newPath := externalFilePath c t
      let cl := cleanup_failed_download newPath
        (if env.leftoverCreated then fsAdd fs newPath else fs)
      { state := { st with mmdb_reader := none }
        fs := cl.1
        trace := [Event.strategy (Strategy.externalUrl (c.EXTERNAL_DB_URL.getD "")),
          Event.logError] ++ cl.2 }) := by
  simp only [refreshExternal, hd, Bool.false_eq_true, if_false]

theorem refreshLocal_eq_success (c : Config) (st : ManagerState) (fs : FileSys)
    (env : FetchEnv) (t : Nat) (ho : env.openOk = true) :
    refreshLocal c st fs env t =
      { state :=
          { st with
            mmdb_reader := some (c.CUSTOM_DB_FILE.getD "")
            last_db_update_time := some t
            current_db_file_path := some (c.CUSTOM_DB_FILE.getD "") }
        fs := fs
        trace := [Event.strategy (Strategy.localFile (c.CUSTOM_DB_FILE.getD ""))] ++
          (match st.mmdb_reader with
            | some old => [Event.closeDb old]
            | none => []) ++ [Event.openDb (c.CUSTOM_DB_FILE.getD "")] } := by
  simp only [refreshLocal, ho, if_true]

theorem refreshLocal_eq_fail (c : Config) (st : ManagerState) (fs : FileSys)
    (env : FetchEnv) (t : Nat) (ho : env.openOk = false) :
    refreshLocal c st fs env t =
      { state := { st with mmdb_reader := none }
        fs := fs
        trace := [Event.strategy (Strategy.localFile (c.CUSTOM_DB_FILE.getD ""))] ++
          (match st.mmdb_reader with
            | some old => [Event.closeDb old]
            | none => []) ++ [Event.logError] } := by
  simp only [refreshLocal, ho, Bool.false_eq_true, if_false]

theorem refreshVendor_eq_success (c : Config) (st : ManagerState) (fs : FileSys)
    (env : FetchEnv) (t : Nat) (member : String) (hd : env.downloadOk = true)
    (ha : env.archiveOk = true)
    (hm : env.members.find? (fun m => endsWithStr m ".mmdb") = some member)
    (ho : env.openOk = true) :
    refreshVendor c st fs env t =
      (let tarPath := vendorArchivePath c t
      let mPath := vendorMmdbPath c t
      let cl := cleanup_old_db_files st.current_db_file_path mPath
        (fsAdd (fsAdd fs tarPath) mPath)
      { state :=
          { st with
            mmdb_reader := some mPath
            last_db_update_time := some t
            current_db_file_path := some mPath }
        fs := cl.1
        trace := [Event.strategy (Strategy.vendorArchive (c.MAXMIND_LICENSE_KEY.getD "")),
            Event.download tarPath, Event.extract member mPath] ++
          (match st.mmdb_reader with
            | some old => [Event.closeDb old]
            | none => []) ++ [Event.openDb mPath] ++ cl.2 }) := by
  simp only [refreshVendor, hd, ha, ho, hm, if_true, List.append_assoc, List.cons_append,
    List.singleton_append, List.nil_append]

theorem refreshVendor_eq_openFail (c : Config) (st : ManagerState) (fs : FileSys)
    (env : FetchEnv) (t : Nat) (member : String) (hd : env.downloadOk = true)
    (ha : env.archiveOk = true)
    (hm : env.members.find? (fun m => endsWithStr m ".mmdb") = some member)
    (ho : env.openOk = false) :
    refreshVendor c st fs env t =
      (let tarPath := vendorArchivePath c t
      let mPath := vendorMmdbPath c t
      let cl := cleanup_failed_download tarPath (fsAdd (fsAdd fs tarPath) mPath)
      { state := { st with mmdb_reader := none }
        fs := cl.1
        trace := [Event.strategy (Strategy.vendorArchive (c.MAXMIND_LICENSE_KEY.getD "")),
            Event.download tarPath, Event.extract member mPath] ++
          (match st.mmdb_reader with
            | some old => [Event.closeDb old]
            | none => []) ++ [Event.logError] ++ cl.2 }) := by
  simp only [refreshVendor, hd, ha, ho, hm, if_true, Bool.false_eq_true, if_false,
    List.append_assoc, List.cons_append, List.singleton_append, List.nil_append]

theorem refreshVendor_eq_noMember (c : Config) (st : ManagerState) (fs : FileSys)
    (env : FetchEnv) (t : Nat) (hd : env.downloadOk = true) (ha : env.archiveOk = true)
    (hm : env.members.find? (fun m => endsWithStr m ".mmdb") = none) :
    refreshVendor c st fs env t =
      (let tarPath := vendorArchivePath c t
      let cl := cleanup_failed_download tarPath (fsAdd fs tarPath)
      { state := { st with mmdb_reader := none }
        fs := cl.1
        trace := [Event.strategy (Strategy.vendorArchive (c.MAXMIND_LICENSE_KEY.getD "")),
          Event.download tarPath, Event.logError] ++ cl.2 }) := by
  simp only [refreshVendor, hd, ha, hm, if_true, List.append_assoc, List.cons_append,
    List.singleton_append, List.nil_append]

theorem refreshVendor_eq_archiveFail (c : Config) (st : ManagerState) (fs : FileSys)
    (env : FetchEnv) (t : Nat) (hd : env.downloadOk = true) (ha : env.archiveOk = false) :
    refreshVendor c st fs env t =
      (let tarPath := vendorArchivePath c t
      let cl := cleanup_failed_download tarPath (fsAdd fs tarPath)
      { state := { st with mmdb_reader := none }
        fs := cl.1
        trace := [Event.strategy (Strategy.vendorArchive (c.MAXMIND_LICENSE_KEY.getD "")),
          Event.download tarPath, Event.logError] ++ cl.2 }) := by
  simp only [refreshVendor, hd, ha, if_true, Bool.false_eq_true, if_false,
    List.append_assoc, List.cons_append, List.singleton_append, List.nil_append]

theorem refreshVendor_eq_dlFail (c : Config) (st : ManagerState) (fs : FileSys)
    (env : FetchEnv) (t : Nat) (hd : env.downloadOk = false) :
    refreshVendor c st fs env t =
      (let tarPath := vendorArchivePath c t
      let cl := cleanup_failed_download tarPath
        (if env.leftoverCreated then fsAdd fs tarPath else fs)
      { state := { st with mmdb_reader := none }
        fs := cl.1
        trace := [Event.strategy (Strategy.vendorArchive (c.MAXMIND_LICENSE_KEY.getD "")),
          Event.logError] ++ cl.2 }) := by
  simp only [refreshVendor, hd, Bool.false_eq_true, if_false, List.append_assoc,
    List.cons_append, List.singleton_append, List.nil_append]

theorem logError_not_mem_cleanup_old (o : Option String) (n : String) (f : FileSys) :
    Event.logError ∉ (cleanup_old_db_files o n f).2 := by
  intro h
  rcases mem_cleanup_old_trace h with ⟨q, hq⟩
  exact Event.noConfusion hq

theorem openDb_not_mem_cleanup_old (p : String) (o : Option String) (n : String)
    (f : FileSys) : Event.openDb p ∉ (cleanup_old_db_files o n f).2 := by
  intro h
  rcases mem_cleanup_old_trace h with ⟨q, hq⟩
  exact Event.noConfusion hq

theorem openDb_not_mem_cleanup_failed (p q : String) (f : FileSys) :
    Event.openDb p ∉ (cleanup_failed_download q f).2 := by
  intro h
  rcases mem_cleanup_failed_trace h with ⟨r, hr⟩
  exact Event.noConfusion hr

/-- A refresh that logged an error (every `except` branch and the
no-strategy branch do) leaves the reader dropped, the recorded active
path untouched, and the file that was backing the previous handle on
disk, provided that file does not collide with the fresh names generated
at time `t`. -/
theorem download_failure_preserves (c : Config) (st : ManagerState) (fs : FileSys)
    (env : FetchEnv) (t : Nat) (old : String)
    (hP : st.current_db_file_path = some old) (hF : old ∈ fs)
    (hN1 : old ≠ externalFilePath c t) (hN2 : old ≠ vendorArchivePath c t)
    (hE : Event.logError ∈ (download_and_load_database c st fs env t).trace) :
    (download_and_load_database c st fs env t).state.mmdb_reader = none ∧
    (download_and_load_database c st fs env t).state.current_db_file_path = some old ∧
    old ∈ (download_and_load_database c st fs env t).fs := by
  unfold download_and_load_database at hE ⊢
  by_cases hext : strTruthy c.EXTERNAL_DB_URL = true
  · rw [if_pos hext] at hE ⊢
    rcases hd : env.downloadOk with _ | _
    · rw [refreshExternal_eq_dlFail c st fs env t hd]
      refine ⟨rfl, hP, ?hm⟩
      refine mem_cleanup_failed_of_ne ?hin hN1
      split
      · exact mem_fsAdd_of_mem _ hF
      · exact hF
    · rcases ho : env.openOk with _ | _
      · rw [refreshExternal_eq_openFail c st fs env t hd ho]
        exact ⟨rfl, hP, mem_cleanup_failed_of_ne (mem_fsAdd_of_mem _ hF) hN1⟩
      · rw [refreshExternal_eq_success c st fs env t hd ho] at hE
        rcases hr : st.mmdb_reader with _ | r <;> rw [hr] at hE <;>
          simp [logError_not_mem_cleanup_old] at hE
  · rw [if_neg hext] at hE ⊢
    by_cases hcust : strTruthy c.CUSTOM_DB_FILE = true
    · rw [if_pos hcust] at hE ⊢
      rcases ho : env.openOk with _ | _
      · rw [refreshLocal_eq_fail c st fs env t ho]
        exact ⟨rfl, hP, hF⟩
      · rw [refreshLocal_eq_success c st fs env t ho] at hE
        rcases hr : st.mmdb_reader with _ | r <;> rw [hr] at hE <;> simp at hE
    · rw [if_neg hcust] at hE ⊢
      by_cases hkey : (strTruthy c.MAXMIND_LICENSE_KEY &&
          strTruthy (Config.MAXMIND_DOWNLOAD_URL c)) = true
      · rw [if_pos hkey] at hE ⊢
        rcases hd : env.downloadOk with _ | _
        · rw [refreshVendor_eq_dlFail c st fs env t hd]
          refine ⟨rfl, hP, ?hm2⟩
          refine mem_cleanup_failed_of_ne ?hin2 hN2
          split
          · exact mem_fsAdd_of_mem _ hF
          · exact hF
        · rcases ha : env.archiveOk with _ | _
          · rw [refreshVendor_eq_archiveFail c st fs env t hd ha]
            exact ⟨rfl, hP, mem_cleanup_failed_of_ne (mem_fsAdd_of_mem _ hF) hN2⟩
          · rcases hm : env.members.find? (fun m => endsWithStr m ".mmdb") with _ | member
            · rw [refreshVendor_eq_noMember c st fs env t hd ha hm]
              exact ⟨rfl, hP, mem_cleanup_failed_of_ne (mem_fsAdd_of_mem _ hF) hN2⟩
            · rcases ho : env.openOk with _ | _
              · rw [refreshVendor_eq_openFail c st fs env t member hd ha hm ho]
                exact ⟨rfl, hP, mem_cleanup_failed_of_ne
                  (mem_fsAdd_of_mem _ (mem_fsAdd_of_mem _ hF)) hN2⟩
              · rw [refreshVendor_eq_success c st fs env t member hd ha hm ho] at hE
                rcases hr : st.mmdb_reader with _ | r <;> rw [hr] at hE <;>
                  simp [logError_not_mem_cleanup_old] at hE
      · rw [if_neg hkey] at hE ⊢
        exact ⟨rfl, hP, hF⟩


/-! ### Dispatch equations for `download_and_load_database` -/

theorem download_eq_external (c : Config) (st : ManagerState) (fs : FileSys)
    (env : FetchEnv) (t : Nat) (hext : strTruthy c.EXTERNAL_DB_URL = true) :
    download_and_load_database c st fs env t = refreshExternal c st fs env t := by
  unfold download_and_load_database
  rw [if_pos hext]

theorem download_eq_local (c : Config) (st : ManagerState) (fs : FileSys)
    (env : FetchEnv) (t : Nat) (hext : strTruthy c.EXTERNAL_DB_URL = false)
    (hcust : strTruthy c.CUSTOM_DB_FILE = true) :
    download_and_load_database c st fs env t = refreshLocal c st fs env t := by
  unfold download_and_load_database
  rw [if_neg (by simp [hext]), if_pos hcust]

theorem download_eq_vendor (c : Config) (st : ManagerState) (fs : FileSys)
    (env : FetchEnv) (t : Nat) (hext : strTruthy c.EXTERNAL_DB_URL = false)
    (hcust : strTruthy c.CUSTOM_DB_FILE = false)
    (hkey : (strTruthy c.MAXMIND_LICENSE_KEY &&
      strTruthy (Config.MAXMIND_DOWNLOAD_URL c)) = true) :
    download_and_load_database c st fs env t = refreshVendor c st fs env t := by
  unfold download_and_load_database
  rw [if_neg (by simp [hext]), if_neg (by simp [hcust]), if_pos hkey]

theorem download_eq_none (c : Config) (st : ManagerState) (fs : FileSys)
    (env : FetchEnv) (t : Nat) (hext : strTruthy c.EXTERNAL_DB_URL = false)
    (hcust : strTruthy c.CUSTOM_DB_FILE = false)
    (hkey : (strTruthy c.MAXMIND_LICENSE_KEY &&
      strTruthy (Config.MAXMIND_DOWNLOAD_URL c)) = false) :
    download_and_load_database c st fs env t = refreshNone st fs := by
  unfold download_and_load_database
  rw [if_neg (by simp [hext]), if_neg (by simp [hcust]), if_neg (by simp [hkey])]


/-! ### C1 -/

/-- C1 counterexample: with `/data/old.mmdb` loaded and active, a refresh
whose download fails leaves the manager with `mmdb_reader = None` — the
previously active handle is not kept serving lookups, refuting the claim
that a failed refresh leaves the active handle in service. -/
theorem C1_counterexample :
    loadedState.mmdb_reader = some "/data/old.mmdb" ∧
    (download_and_load_database extConfig loadedState ["/data/old.mmdb"]
      envDlFail 1).state.mmdb_reader = none ∧
    ¬ ((download_and_load_database extConfig loadedState ["/data/old.mmdb"]
      envDlFail 1).state.mmdb_reader = some "/data/old.mmdb") := by
  decide

/-- C1 (amended): if a database was loaded successfully and a subsequent
refresh — through `download_and_load_database` or
`check_for_new_release_and_update` — fails at any step (every failure
path logs an error), then the old backing file still exists on disk and
`current_db_file_path` still names it, but the active handle itself is
dropped (`mmdb_reader = None`), so the manager answers Unavailable
instead of continuing to serve the old data.  The non-collision
hypotheses say the old file is not one of the fresh timestamped names of
this refresh. -/
theorem C1_failed_refresh_keeps_file_but_drops_handle
    (c : Config) (st : ManagerState) (fs : FileSys) (env : FetchEnv) (t : Nat)
    (old : String) (hR : st.mmdb_reader = some old)
    (hP : st.current_db_file_path = some old) (hF : old ∈ fs)
    (hN1 : old ≠ externalFilePath c t) (hN2 : old ≠ vendorArchivePath c t) :
    (Event.logError ∈ (download_and_load_database c st fs env t).trace →
      (download_and_load_database c st fs env t).state.mmdb_reader = none ∧
      (download_and_load_database c st fs env t).state.current_db_file_path = some old ∧
      old ∈ (download_and_load_database c st fs env t).fs) ∧
    (Event.logError ∈ (check_for_new_release_and_update c st fs env t).trace →
      (check_for_new_release_and_update c st fs env t).state.mmdb_reader = none ∧
      (check_for_new_release_and_update c st fs env t).state.current_db_file_path = some old ∧
      old ∈ (check_for_new_release_and_update c st fs env t).fs) := by
  have hprev : st.mmdb_reader ≠ none := by rw [hR]; exact Option.noConfusion
  constructor
  · exact download_failure_preserves c st fs env t old hP hF hN1 hN2
  · intro hE
    unfold check_for_new_release_and_update at hE ⊢
    by_cases hcust : strTruthy c.CUSTOM_DB_FILE = true
    · rw [if_pos hcust] at hE
      simp at hE
    · rw [if_neg hcust] at hE ⊢
      by_cases hcond : (strTruthy c.EXTERNAL_DB_URL ||
          (strTruthy c.MAXMIND_LICENSE_KEY &&
            strTruthy (Config.MAXMIND_DOWNLOAD_URL c))) = true
      · rw [if_pos hcond] at hE ⊢
        exact download_failure_preserves c st fs env t old hP hF hN1 hN2 hE
      · rw [if_neg hcond] at hE
        simp at hE

/-- C1 witness: the amended theorem applied to a concrete failed refresh
after a successful load. -/
theorem C1_witness :
    (download_and_load_database extConfig loadedState ["/data/old.mmdb"]
      envDlFail 1).state.mmdb_reader = none ∧
    (download_and_load_database extConfig loadedState ["/data/old.mmdb"]
      envDlFail 1).state.current_db_file_path = some "/data/old.mmdb" ∧
    "/data/old.mmdb" ∈ (download_and_load_database extConfig loadedState
      ["/data/old.mmdb"] envDlFail 1).fs :=
  (C1_failed_refresh_keeps_file_but_drops_handle extConfig loadedState
    ["/data/old.mmdb"] envDlFail 1 "/data/old.mmdb" (by decide) (by decide)
    (by decide) (by decide) (by decide)).1 (by decide)

/-! ### C2 -/

/-- C2 counterexample: in a fully successful external refresh over a
previously loaded manager, the trace closes the old handle at index 2 and
only opens the new handle at index 3 (each kind of event occurs exactly
once), so the new handle is not opened before the previous handle is
closed — refuting the claimed new-before-old swap ordering. -/
theorem C2_counterexample :
    (download_and_load_database extConfig loadedState ["/data/old.mmdb"]
        envAllOk 1).trace =
      [Event.strategy (Strategy.externalUrl "http://x/db.mmdb"),
        Event.download "/data/external-1.mmdb",
        Event.closeDb "/data/old.mmdb",
        Event.openDb "/data/external-1.mmdb",
        Event.removeFile "/data/old.mmdb"] ∧
    ((download_and_load_database extConfig loadedState ["/data/old.mmdb"]
      envAllOk 1).trace.findIdx? isCloseEvent = some 2) ∧
    ((download_and_load_database extConfig loadedState ["/data/old.mmdb"]
      envAllOk 1).trace.findIdx? isOpenEvent = some 3) ∧
    ((download_and_load_database extConfig loadedState ["/data/old.mmdb"]
      envAllOk 1).trace.filter isOpenEvent).length = 1 ∧
    ((download_and_load_database extConfig loadedState ["/data/old.mmdb"]
      envAllOk 1).trace.filter isCloseEvent).length = 1 := by
  decide

/-- C2 (amended): on every successful refresh the swap follows
close-before-open ordering — the previous handle is closed, then the new
handle is opened, and only after the new handle is open is the old
backing file removed (no removal at all in the local strategy).  The
conclusion gives the complete effect trace of each strategy's success
path for a manager with a previous handle. -/
theorem C2_swap_is_close_then_open (c : Config) (st : ManagerState) (fs : FileSys)
    (env : FetchEnv) (t : Nat) (old oldP : String)
    (hR : st.mmdb_reader = some old) (hP : st.current_db_file_path = some oldP) :
    (strTruthy c.EXTERNAL_DB_URL = true → env.downloadOk = true → env.openOk = true →
      oldP ≠ "" → oldP ≠ externalFilePath c t → oldP ∈ fs →
      (download_and_load_database c st fs env t).trace =
        [Event.strategy (Strategy.externalUrl (c.EXTERNAL_DB_URL.getD "")),
          Event.download (externalFilePath c t),
          Event.closeDb old,
          Event.openDb (externalFilePath c t),
          Event.removeFile oldP]) ∧
    (strTruthy c.EXTERNAL_DB_URL = false → strTruthy c.CUSTOM_DB_FILE = true →
      env.openOk = true →
      (download_and_load_database c st fs env t).trace =
        [Event.strategy (Strategy.localFile (c.CUSTOM_DB_FILE.getD "")),
          Event.closeDb old,
          Event.openDb (c.CUSTOM_DB_FILE.getD "")]) ∧
    (∀ member, strTruthy c.EXTERNAL_DB_URL = false → strTruthy c.CUSTOM_DB_FILE = false →
      (strTruthy c.MAXMIND_LICENSE_KEY &&
        strTruthy (Config.MAXMIND_DOWNLOAD_URL c)) = true →
      env.downloadOk = true → env.archiveOk = true →
      env.members.find? (fun m => endsWithStr m ".mmdb") = some member →
      env.openOk = true →
      oldP ≠ "" → oldP ≠ vendorMmdbPath c t → oldP ∈ fs →
      (download_and_load_database c st fs env t).trace =
        [Event.strategy (Strategy.vendorArchive (c.MAXMIND_LICENSE_KEY.getD "")),
          Event.download (vendorArchivePath c t),
          Event.extract member (vendorMmdbPath c t),
          Event.closeDb old,
          Event.openDb (vendorMmdbPath c t),
          Event.removeFile oldP]) := by
  refine ⟨?hext, ?hloc, ?hven⟩
  · intro hext hd ho hne hneNew hmem
    rw [download_eq_external c st fs env t hext,
      refreshExternal_eq_success c st fs env t hd ho]
    simp only [hR, hP, cleanup_old_db_files]
    rw [if_pos (⟨hne, hneNew, mem_fsAdd_of_mem _ hmem⟩ :
      oldP ≠ "" ∧ oldP ≠ externalFilePath c t ∧ oldP ∈ fsAdd fs (externalFilePath c t))]
    simp
  · intro hext hcust ho
    rw [download_eq_local c st fs env t hext hcust,
      refreshLocal_eq_success c st fs env t ho]
    simp [hR]
  · intro member hext hcust hkey hd ha hm ho hne hneNew hmem
    rw [download_eq_vendor c st fs env t hext hcust hkey,
      refreshVendor_eq_success c st fs env t member hd ha hm ho]
    simp only [hR, hP, cleanup_old_db_files]
    rw [if_pos (⟨hne, hneNew, mem_fsAdd_of_mem _ (mem_fsAdd_of_mem _ hmem)⟩ :
      oldP ≠ "" ∧ oldP ≠ vendorMmdbPath c t ∧
        oldP ∈ fsAdd (fsAdd fs (vendorArchivePath c t)) (vendorMmdbPath c t))]
    simp

/-- C2 witness: the amended trace characterization at a concrete
successful external refresh. -/
theorem C2_witness :
    (download_and_load_database extConfig loadedState ["/data/old.mmdb"]
        envAllOk 1).trace =
      [Event.strategy (Strategy.externalUrl "http://x/db.mmdb"),
        Event.download "/data/external-1.mmdb",
        Event.closeDb "/data/old.mmdb",
        Event.openDb "/data/external-1.mmdb",
        Event.removeFile "/data/old.mmdb"] := by
  have h := (C2_swap_is_close_then_open extConfig loadedState ["/data/old.mmdb"]
    envAllOk 1 "/data/old.mmdb" "/data/old.mmdb" (by decide) (by decide)).1
    (by decide) (by decide) (by decide) (by decide) (by decide) (by decide)
  simpa using h

/-! ### C3 -/

theorem vendor_paths_ne (c : Config) (t : Nat) :
    vendorMmdbPath c t ≠ vendorArchivePath c t := by
  intro h
  have hlen := congrArg String.length h
  have h1 : String.length ".mmdb" = 5 := by decide
  have h2 : String.length ".tar.gz" = 7 := by decide
  unfold vendorMmdbPath vendorArchivePath at hlen
  simp only [String.length_append, h1, h2] at hlen
  omega

/-- C3 counterexample: a vendor refresh that fails when opening the
freshly extracted database leaves that extracted file on disk with no
handle loaded — the refresh created a file it did not remove, refuting
the claim that a failing non-local refresh removes whatever file it
created and leaves no orphaned files. -/
theorem C3_counterexample :
    vendorMmdbPath keyConfig 1 ∈ (download_and_load_database keyConfig
      initialManagerState [] envOpenFail 1).fs ∧
    (download_and_load_database keyConfig initialManagerState []
      envOpenFail 1).state.mmdb_reader = none ∧
    Event.logError ∈ (download_and_load_database keyConfig initialManagerState []
      envOpenFail 1).trace := by
  decide

/-- C3 (amended): the external strategy does clean up after itself — a
failed external refresh never leaves the freshly named download file on
disk — and a failed vendor refresh always removes the archive; but a
vendor refresh that fails after extraction leaves the extracted `.mmdb`
orphaned on disk with the reader dropped, and a successful vendor refresh
leaves the downloaded archive on disk next to the active database file. -/
theorem C3_cleanup_and_orphans (c : Config) (st : ManagerState) (fs : FileSys)
    (env : FetchEnv) (t : Nat) :
    (strTruthy c.EXTERNAL_DB_URL = true →
      env.downloadOk = false ∨ env.openOk = false →
      externalFilePath c t ∉ (download_and_load_database c st fs env t).fs) ∧
    (strTruthy c.EXTERNAL_DB_URL = false → strTruthy c.CUSTOM_DB_FILE = false →
      (strTruthy c.MAXMIND_LICENSE_KEY &&
        strTruthy (Config.MAXMIND_DOWNLOAD_URL c)) = true →
      (env.downloadOk = false ∨ env.archiveOk = false ∨
        env.members.find? (fun m => endsWithStr m ".mmdb") = none ∨
        env.openOk = false) →
      vendorArchivePath c t ∉ (download_and_load_database c st fs env t).fs) ∧
    (∀ member, strTruthy c.EXTERNAL_DB_URL = false → strTruthy c.CUSTOM_DB_FILE = false →
      (strTruthy c.MAXMIND_LICENSE_KEY &&
        strTruthy (Config.MAXMIND_DOWNLOAD_URL c)) = true →
      env.downloadOk = true → env.archiveOk = true →
      env.members.find? (fun m => endsWithStr m ".mmdb") = some member →
      env.openOk = false →
      vendorMmdbPath c t ∈ (download_and_load_database c st fs env t).fs ∧
      (download_and_load_database c st fs env t).state.mmdb_reader = none) ∧
    (∀ member, strTruthy c.EXTERNAL_DB_URL = false → strTruthy c.CUSTOM_DB_FILE = false →
      (strTruthy c.MAXMIND_LICENSE_KEY &&
        strTruthy (Config.MAXMIND_DOWNLOAD_URL c)) = true →
      env.downloadOk = true → env.archiveOk = true →
      env.members.find? (fun m => endsWithStr m ".mmdb") = some member →
      env.openOk = true → st.current_db_file_path ≠ some (vendorArchivePath c t) →
      vendorArchivePath c t ∈ (download_and_load_database c st fs env t).fs) := by
  refine ⟨?hext, ?hvfail, ?horphan, ?hkept⟩
  · intro hext hfail
    rw [download_eq_external c st fs env t hext]
    rcases hd : env.downloadOk with _ | _
    · rw [refreshExternal_eq_dlFail c st fs env t hd]
      exact not_mem_cleanup_failed _ _
    · rcases hfail with hfail | ho
      · rw [hd] at hfail
        exact absurd hfail (by simp)
      · rw [refreshExternal_eq_openFail c st fs env t hd ho]
        exact not_mem_cleanup_failed _ _
  · intro hext hcust hkey hfail
    rw [download_eq_vendor c st fs env t hext hcust hkey]
    rcases hd : env.downloadOk with _ | _
    · rw [refreshVendor_eq_dlFail c st fs env t hd]
      exact not_mem_cleanup_failed _ _
    · rcases ha : env.archiveOk with _ | _
      · rw [refreshVendor_eq_archiveFail c st fs env t hd ha]
        exact not_mem_cleanup_failed _ _
      · rcases hm : env.members.find? (fun m => endsWithStr m ".mmdb") with _ | member
        · rw [refreshVendor_eq_noMember c st fs env t hd ha hm]
          exact not_mem_cleanup_failed _ _
        · rcases ho : env.openOk with _ | _
          · rw [refreshVendor_eq_openFail c st fs env t member hd ha hm ho]
            exact not_mem_cleanup_failed _ _
          · rcases hfail with hfail | hfail | hfail | hfail
            · rw [hd] at hfail
              exact absurd hfail (by simp)
            · rw [ha] at hfail
              exact absurd hfail (by simp)
            · rw [hm] at hfail
              exact absurd hfail (by simp)
            · rw [ho] at hfail
              exact absurd hfail (by simp)
  · intro member hext hcust hkey hd ha hm ho
    rw [download_eq_vendor c st fs env t hext hcust hkey,
      refreshVendor_eq_openFail c st fs env t member hd ha hm ho]
    refine ⟨?hmem, rfl⟩
    exact mem_cleanup_failed_of_ne (mem_fsAdd_self _ _) (vendor_paths_ne c t)
  · intro member hext hcust hkey hd ha hm ho hne
    rw [download_eq_vendor c st fs env t hext hcust hkey,
      refreshVendor_eq_success c st fs env t member hd ha hm ho]
    exact mem_cleanup_old_of_ne _ (mem_fsAdd_of_mem _ (mem_fsAdd_self _ _)) hne

/-- C3 witness: the amended theorem at a concrete vendor refresh that
fails to open the extracted file, exhibiting the orphaned extraction. -/
theorem C3_witness :
    vendorMmdbPath keyConfig 1 ∈ (download_and_load_database keyConfig
      initialManagerState [] envOpenFail 1).fs ∧
    (download_and_load_database keyConfig initialManagerState []
      envOpenFail 1).state.mmdb_reader = none :=
  (C3_cleanup_and_orphans keyConfig initialManagerState [] envOpenFail 1).2.2.1
    "GeoLite2-City_X/GeoLite2-City.mmdb" (by decide) (by decide) (by decide)
    (by decide) (by decide) (by decide) (by decide)

/-! ### C4 -/

theorem extract_not_mem_cleanup_old (m d : String) (o : Option String) (n : String)
    (f : FileSys) : Event.extract m d ∉ (cleanup_old_db_files o n f).2 := by
  intro h
  rcases mem_cleanup_old_trace h with ⟨q, hq⟩
  exact Event.noConfusion hq

theorem extract_not_mem_cleanup_failed (m d p : String) (f : FileSys) :
    Event.extract m d ∉ (cleanup_failed_download p f).2 := by
  intro h
  rcases mem_cleanup_failed_trace h with ⟨q, hq⟩
  exact Event.noConfusion hq

/-- C4 counterexample: a fully successful vendor refresh extracts the
database and loads it, yet the downloaded compressed archive is still on
disk afterwards — refuting the claim that the archive is removed after
extraction regardless of outcome. -/
theorem C4_counterexample :
    Event.extract "GeoLite2-City_X/GeoLite2-City.mmdb" (vendorMmdbPath keyConfig 1) ∈
      (download_and_load_database keyConfig initialManagerState [] envAllOk 1).trace ∧
    (download_and_load_database keyConfig initialManagerState []
      envAllOk 1).state.mmdb_reader = some (vendorMmdbPath keyConfig 1) ∧
    vendorArchivePath keyConfig 1 ∈ (download_and_load_database keyConfig
      initialManagerState [] envAllOk 1).fs := by
  decide

/-- C4 (amended): in the vendor-archive strategy, every extraction takes
exactly the first archive member whose name ends in `.mmdb` and writes it
to the timestamped extraction path; absence of any matching member is a
failure (error logged, reader dropped) after which the archive is
removed; the archive is likewise removed on the other failure paths — but
on a successful refresh the archive is not removed and remains on disk. -/
theorem C4_archive_extraction (c : Config) (st : ManagerState) (fs : FileSys)
    (env : FetchEnv) (t : Nat)
    (hext : strTruthy c.EXTERNAL_DB_URL = false)
    (hcust : strTruthy c.CUSTOM_DB_FILE = false)
    (hkey : (strTruthy c.MAXMIND_LICENSE_KEY &&
      strTruthy (Config.MAXMIND_DOWNLOAD_URL c)) = true) :
    (∀ member mPath, Event.extract member mPath ∈
        (download_and_load_database c st fs env t).trace →
      env.members.find? (fun m => endsWithStr m ".mmdb") = some member ∧
      mPath = vendorMmdbPath c t) ∧
    (env.downloadOk = true → env.archiveOk = true →
      env.members.find? (fun m => endsWithStr m ".mmdb") = none →
      Event.logError ∈ (download_and_load_database c st fs env t).trace ∧
      (download_and_load_database c st fs env t).state.mmdb_reader = none ∧
      vendorArchivePath c t ∉ (download_and_load_database c st fs env t).fs) ∧
    (∀ member, env.downloadOk = true → env.archiveOk = true →
      env.members.find? (fun m => endsWithStr m ".mmdb") = some member →
      env.openOk = false →
      vendorArchivePath c t ∉ (download_and_load_database c st fs env t).fs) ∧
    (∀ member, env.downloadOk = true → env.archiveOk = true →
      env.members.find? (fun m => endsWithStr m ".mmdb") = some member →
      env.openOk = true → st.current_db_file_path ≠ some (vendorArchivePath c t) →
      vendorArchivePath c t ∈ (download_and_load_database c st fs env t).fs) := by
  refine ⟨?hfirst, ?hformat, ?hremoved, ?hkept⟩
  · intro member mPath hmem
    rw [download_eq_vendor c st fs env t hext hcust hkey] at hmem
    rcases hd : env.downloadOk with _ | _
    · rw [refreshVendor_eq_dlFail c st fs env t hd] at hmem
      simp [extract_not_mem_cleanup_failed] at hmem
    · rcases ha : env.archiveOk with _ | _
      · rw [refreshVendor_eq_archiveFail c st fs env t hd ha] at hmem
        simp [extract_not_mem_cleanup_failed] at hmem
      · rcases hm : env.members.find? (fun m => endsWithStr m ".mmdb") with _ | m0
        · rw [refreshVendor_eq_noMember c st fs env t hd ha hm] at hmem
          simp [extract_not_mem_cleanup_failed] at hmem
        · rcases ho : env.openOk with _ | _
          · rw [refreshVendor_eq_openFail c st fs env t m0 hd ha hm ho] at hmem
            rcases hr : st.mmdb_reader with _ | r <;> rw [hr] at hmem <;>
              simp [extract_not_mem_cleanup_failed] at hmem <;>
              exact ⟨by rw [hmem.1], hmem.2⟩
          · rw [refreshVendor_eq_success c st fs env t m0 hd ha hm ho] at hmem
            rcases hr : st.mmdb_reader with _ | r <;> rw [hr] at hmem <;>
              simp [extract_not_mem_cleanup_old] at hmem <;>
              exact ⟨by rw [hmem.1], hmem.2⟩
  · intro hd ha hm
    rw [download_eq_vendor c st fs env t hext hcust hkey,
      refreshVendor_eq_noMember c st fs env t hd ha hm]
    refine ⟨?hlog, rfl, not_mem_cleanup_failed _ _⟩
    simp
  · intro member hd ha hm ho
    rw [download_eq_vendor c st fs env t hext hcust hkey,
      refreshVendor_eq_openFail c st fs env t member hd ha hm ho]
    exact not_mem_cleanup_failed _ _
  · intro member hd ha hm ho hne
    rw [download_eq_vendor c st fs env t hext hcust hkey,
      refreshVendor_eq_success c st fs env t member hd ha hm ho]
    exact mem_cleanup_old_of_ne _ (mem_fsAdd_of_mem _ (mem_fsAdd_self _ _)) hne

/-- C4 witness: at a concrete successful vendor refresh, the extraction
took the first matching member and the archive stayed on disk. -/
theorem C4_witness :
    (envAllOk.members.find? (fun m => endsWithStr m ".mmdb") =
      some "GeoLite2-City_X/GeoLite2-City.mmdb") ∧
    vendorArchivePath keyConfig 1 ∈ (download_and_load_database keyConfig
      initialManagerState [] envAllOk 1).fs :=
  ⟨((C4_archive_extraction keyConfig initialManagerState [] envAllOk 1
      (by decide) (by decide) (by decide)).1 "GeoLite2-City_X/GeoLite2-City.mmdb"
      (vendorMmdbPath keyConfig 1) (by decide)).1,
    (C4_archive_extraction keyConfig initialManagerState [] envAllOk 1
      (by decide) (by decide) (by decide)).2.2.2 "GeoLite2-City_X/GeoLite2-City.mmdb"
      (by decide) (by decide) (by decide) (by decide) (by decide)⟩

/-! ### C5 -/

theorem maxmind_url_nonempty (k : String) :
    ("https://download.maxmind.com/app/geoip_download?edition_id=GeoLite2-City&license_key=" ++
      k ++ "&suffix=tar.gz") ≠ "" := by
  intro h
  have hd := congrArg String.data h
  have hrw : ∀ a b : String, (a ++ b).data = a.data ++ b.data := fun a b => rfl
  rw [hrw, hrw] at hd
  simp at hd

/-- The guard of the vendor branch (license key and derived download URL
both truthy) is equivalent to the license key alone being truthy, because
the download URL is derived from the key. -/
theorem maxmind_condition (c : Config) :
    (strTruthy c.MAXMIND_LICENSE_KEY && strTruthy (Config.MAXMIND_DOWNLOAD_URL c)) =
      strTruthy c.MAXMIND_LICENSE_KEY := by
  rcases hk : c.MAXMIND_LICENSE_KEY with _ | k
  · simp [Config.MAXMIND_DOWNLOAD_URL, hk, strTruthy]
  · by_cases hne : k = ""
    · simp [Config.MAXMIND_DOWNLOAD_URL, hk, hne, strTruthy]
    · simp [Config.MAXMIND_DOWNLOAD_URL, hk, hne, strTruthy, maxmind_url_nonempty k]

theorem refreshExternal_head (c : Config) (st : ManagerState) (fs : FileSys)
    (env : FetchEnv) (t : Nat) :
    (refreshExternal c st fs env t).trace.head? =
      some (Event.strategy (Strategy.externalUrl (c.EXTERNAL_DB_URL.getD ""))) := by
  rcases hd : env.downloadOk with _ | _
  · rw [refreshExternal_eq_dlFail c st fs env t hd]
    rfl
  · rcases ho : env.openOk with _ | _
    · rw [refreshExternal_eq_openFail c st fs env t hd ho]
      rfl
    · rw [refreshExternal_eq_success c st fs env t hd ho]
      rfl

theorem refreshLocal_head (c : Config) (st : ManagerState) (fs : FileSys)
    (env : FetchEnv) (t : Nat) :
    (refreshLocal c st fs env t).trace.head? =
      some (Event.strategy (Strategy.localFile (c.CUSTOM_DB_FILE.getD ""))) := by
  rcases ho : env.openOk with _ | _
  · rw [refreshLocal_eq_fail c st fs env t ho]
    rfl
  · rw [refreshLocal_eq_success c st fs env t ho]
    rfl

theorem refreshVendor_head (c : Config) (st : ManagerState) (fs : FileSys)
    (env : FetchEnv) (t : Nat) :
    (refreshVendor c st fs env t).trace.head? =
      some (Event.strategy (Strategy.vendorArchive (c.MAXMIND_LICENSE_KEY.getD ""))) := by
  rcases hd : env.downloadOk with _ | _
  · rw [refreshVendor_eq_dlFail c st fs env t hd]
    rfl
  · rcases ha : env.archiveOk with _ | _
    · rw [refreshVendor_eq_archiveFail c st fs env t hd ha]
      rfl
    · rcases hm : env.members.find? (fun m => endsWithStr m ".mmdb") with _ | m0
      · rw [refreshVendor_eq_noMember c st fs env t hd ha hm]
        rfl
      · rcases ho : env.openOk with _ | _
        · rw [refreshVendor_eq_openFail c st fs env t m0 hd ha hm ho]
          rfl
        · rw [refreshVendor_eq_success c st fs env t m0 hd ha hm ho]
          rfl

/-- C5: strategy selection is deterministic with the fixed precedence
external URL, then local custom file, then vendor license key, then no
strategy.  The branch `download_and_load_database` actually runs (first
trace event) is exactly `selectStrategy`, and when no strategy is
selected the manager ends with no reader — Unavailable. -/
theorem C5_strategy_precedence (c : Config) (st : ManagerState) (fs : FileSys)
    (env : FetchEnv) (t : Nat) :
    ((download_and_load_database c st fs env t).trace.head? =
      some (Event.strategy (selectStrategy c))) ∧
    (strTruthy c.EXTERNAL_DB_URL = true →
      selectStrategy c = Strategy.externalUrl (c.EXTERNAL_DB_URL.getD "")) ∧
    (strTruthy c.EXTERNAL_DB_URL = false → strTruthy c.CUSTOM_DB_FILE = true →
      selectStrategy c = Strategy.localFile (c.CUSTOM_DB_FILE.getD "")) ∧
    (strTruthy c.EXTERNAL_DB_URL = false → strTruthy c.CUSTOM_DB_FILE = false →
      strTruthy c.MAXMIND_LICENSE_KEY = true →
      selectStrategy c = Strategy.vendorArchive (c.MAXMIND_LICENSE_KEY.getD "")) ∧
    (selectStrategy c = Strategy.noStrategy →
      (download_and_load_database c st fs env t).state.mmdb_reader = none) := by
  refine ⟨?hhead, ?hextsel, ?hlocsel, ?hvensel, ?hnone⟩
  · by_cases hext : strTruthy c.EXTERNAL_DB_URL = true
    · rw [download_eq_external c st fs env t hext]
      unfold selectStrategy
      rw [if_pos hext]
      exact refreshExternal_head c st fs env t
    · have hextF : strTruthy c.EXTERNAL_DB_URL = false := by
        rcases hb : strTruthy c.EXTERNAL_DB_URL with _ | _
        · rfl
        · exact absurd hb hext
      by_cases hcust : strTruthy c.CUSTOM_DB_FILE = true
      · rw [download_eq_local c st fs env t hextF hcust]
        unfold selectStrategy
        rw [if_neg (by simp [hextF]), if_pos hcust]
        exact refreshLocal_head c st fs env t
      · have hcustF : strTruthy c.CUSTOM_DB_FILE = false := by
          rcases hb : strTruthy c.CUSTOM_DB_FILE with _ | _
          · rfl
          · exact absurd hb hcust
        by_cases hkeyB : strTruthy c.MAXMIND_LICENSE_KEY = true
        · have hcond : (strTruthy c.MAXMIND_LICENSE_KEY &&
              strTruthy (Config.MAXMIND_DOWNLOAD_URL c)) = true := by
            rw [maxmind_condition c]
            exact hkeyB
          rw [download_eq_vendor c st fs env t hextF hcustF hcond]
          unfold selectStrategy
          rw [if_neg (by simp [hextF]), if_neg (by simp [hcustF]), if_pos hkeyB]
          exact refreshVendor_head c st fs env t
        · have hkeyF : strTruthy c.MAXMIND_LICENSE_KEY = false := by
            rcases hb : strTruthy c.MAXMIND_LICENSE_KEY with _ | _
            · rfl
            · exact absurd hb hkeyB
          have hcond : (strTruthy c.MAXMIND_LICENSE_KEY &&
              strTruthy (Config.MAXMIND_DOWNLOAD_URL c)) = false := by
            rw [maxmind_condition c]
            exact hkeyF
          rw [download_eq_none c st fs env t hextF hcustF hcond]
          unfold selectStrategy
          rw [if_neg (by simp [hextF]), if_neg (by simp [hcustF]), if_neg (by simp [hkeyF])]
          rfl
  · intro hext
    unfold selectStrategy
    rw [if_pos hext]
  · intro hext hcust
    unfold selectStrategy
    rw [if_neg (by simp [hext]), if_pos hcust]
  · intro hext hcust hkeyB
    unfold selectStrategy
    rw [if_neg (by simp [hext]), if_neg (by simp [hcust]), if_pos hkeyB]
  · intro hsel
    by_cases hext : strTruthy c.EXTERNAL_DB_URL = true
    · unfold selectStrategy at hsel
      rw [if_pos hext] at hsel
      exact Strategy.noConfusion hsel
    · have hextF : strTruthy c.EXTERNAL_DB_URL = false := by
        rcases hb : strTruthy c.EXTERNAL_DB_URL with _ | _
        · rfl
        · exact absurd hb hext
      by_cases hcust : strTruthy c.CUSTOM_DB_FILE = true
      · unfold selectStrategy at hsel
        rw [if_neg (by simp [hextF]), if_pos hcust] at hsel
        exact Strategy.noConfusion hsel
      · have hcustF : strTruthy c.CUSTOM_DB_FILE = false := by
          rcases hb : strTruthy c.CUSTOM_DB_FILE with _ | _
          · rfl
          · exact absurd hb hcust
        by_cases hkeyB : strTruthy c.MAXMIND_LICENSE_KEY = true
        · unfold selectStrategy at hsel
          rw [if_neg (by simp [hextF]), if_neg (by simp [hcustF]), if_pos hkeyB] at hsel
          exact Strategy.noConfusion hsel
        · have hkeyF : strTruthy c.MAXMIND_LICENSE_KEY = false := by
            rcases hb : strTruthy c.MAXMIND_LICENSE_KEY with _ | _
            · rfl
            · exact absurd hb hkeyB
          have hcond : (strTruthy c.MAXMIND_LICENSE_KEY &&
              strTruthy (Config.MAXMIND_DOWNLOAD_URL c)) = false := by
            rw [maxmind_condition c]
            exact hkeyF
          rw [download_eq_none c st fs env t hextF hcustF hcond]
          rfl

/-- C5 witness: with only the license key configured, the vendor branch
runs and is the selected strategy. -/
theorem C5_witness :
    (download_and_load_database keyConfig initialManagerState [] envAllOk 1).trace.head? =
      some (Event.strategy (selectStrategy keyConfig)) ∧
    selectStrategy keyConfig = Strategy.vendorArchive "K" :=
  ⟨(C5_strategy_precedence keyConfig initialManagerState [] envAllOk 1).1,
    (C5_strategy_precedence keyConfig initialManagerState [] envAllOk 1).2.2.2.1
      (by decide) (by decide) (by decide)⟩

/-! ### C6 -/

/-- Any property of the refresh result can be established branch by
branch over the four strategies. -/
theorem download_cases (c : Config) (st : ManagerState) (fs : FileSys) (env : FetchEnv)
    (t : Nat) (P : RefreshResult → Prop)
    (h1 : P (refreshExternal c st fs env t)) (h2 : P (refreshLocal c st fs env t))
    (h3 : P (refreshVendor c st fs env t)) (h4 : P (refreshNone st fs)) :
    P (download_and_load_database c st fs env t) := by
  unfold download_and_load_database
  split
  · exact h1
  · split
    · exact h2
    · split
      · exact h3
      · exact h4

theorem refreshExternal_tag (c : Config) (st : ManagerState) (fs : FileSys)
    (env : FetchEnv) (t : Nat) :
    (refreshExternal c st fs env t).state.current_db_version_tag =
      st.current_db_version_tag := by
  rcases hd : env.downloadOk with _ | _
  · rw [refreshExternal_eq_dlFail c st fs env t hd]
  · rcases ho : env.openOk with _ | _
    · rw [refreshExternal_eq_openFail c st fs env t hd ho]
    · rw [refreshExternal_eq_success c st fs env t hd ho]

theorem refreshLocal_tag (c : Config) (st : ManagerState) (fs : FileSys)
    (env : FetchEnv) (t : Nat) :
    (refreshLocal c st fs env t).state.current_db_version_tag =
      st.current_db_version_tag := by
  rcases ho : env.openOk with _ | _
  · rw [refreshLocal_eq_fail c st fs env t ho]
  · rw [refreshLocal_eq_success c st fs env t ho]

theorem refreshVendor_tag (c : Config) (st : ManagerState) (fs : FileSys)
    (env : FetchEnv) (t : Nat) :
    (refreshVendor c st fs env t).state.current_db_version_tag =
      st.current_db_version_tag := by
  rcases hd : env.downloadOk with _ | _
  · rw [refreshVendor_eq_dlFail c st fs env t hd]
  · rcases ha : env.archiveOk with _ | _
    · rw [refreshVendor_eq_archiveFail c st fs env t hd ha]
    · rcases hm : env.members.find? (fun m => endsWithStr m ".mmdb") with _ | m0
      · rw [refreshVendor_eq_noMember c st fs env t hd ha hm]
      · rcases ho : env.openOk with _ | _
        · rw [refreshVendor_eq_openFail c st fs env t m0 hd ha hm ho]
        · rw [refreshVendor_eq_success c st fs env t m0 hd ha hm ho]

theorem refreshExternal_openDb_time (c : Config) (st : ManagerState) (fs : FileSys)
    (env : FetchEnv) (t : Nat) (p : String)
    (hE : Event.openDb p ∈ (refreshExternal c st fs env t).trace) :
    (refreshExternal c st fs env t).state.last_db_update_time = some t := by
  rcases hd : env.downloadOk with _ | _
  · rw [refreshExternal_eq_dlFail c st fs env t hd] at hE
    simp [openDb_not_mem_cleanup_failed] at hE
  · rcases ho : env.openOk with _ | _
    · rw [refreshExternal_eq_openFail c st fs env t hd ho] at hE
      rcases hr : st.mmdb_reader with _ | r <;> rw [hr] at hE <;>
        simp [openDb_not_mem_cleanup_failed] at hE
    · rw [refreshExternal_eq_success c st fs env t hd ho]

theorem refreshLocal_openDb_time (c : Config) (st : ManagerState) (fs : FileSys)
    (env : FetchEnv) (t : Nat) (p : String)
    (hE : Event.openDb p ∈ (refreshLocal c st fs env t).trace) :
    (refreshLocal c st fs env t).state.last_db_update_time = some t := by
  rcases ho : env.openOk with _ | _
  · rw [refreshLocal_eq_fail c st fs env t ho] at hE
    rcases hr : st.mmdb_reader with _ | r <;> rw [hr] at hE <;> simp at hE
  · rw [refreshLocal_eq_success c st fs env t ho]

theorem refreshVendor_openDb_time (c : Config) (st : ManagerState) (fs : FileSys)
    (env : FetchEnv) (t : Nat) (p : String)
    (hE : Event.openDb p ∈ (refreshVendor c st fs env t).trace) :
    (refreshVendor c st fs env t).state.last_db_update_time = some t := by
  rcases hd : env.downloadOk with _ | _
  · rw [refreshVendor_eq_dlFail c st fs env t hd] at hE
    simp [openDb_not_mem_cleanup_failed] at hE
  · rcases ha : env.archiveOk with _ | _
    · rw [refreshVendor_eq_archiveFail c st fs env t hd ha] at hE
      simp [openDb_not_mem_cleanup_failed] at hE
    · rcases hm : env.members.find? (fun m => endsWithStr m ".mmdb") with _ | m0
      · rw [refreshVendor_eq_noMember c st fs env t hd ha hm] at hE
        simp [openDb_not_mem_cleanup_failed] at hE
      · rcases ho : env.openOk with _ | _
        · rw [refreshVendor_eq_openFail c st fs env t m0 hd ha hm ho] at hE
          rcases hr : st.mmdb_reader with _ | r <;> rw [hr] at hE <;>
            simp [openDb_not_mem_cleanup_failed] at hE
        · rw [refreshVendor_eq_success c st fs env t m0 hd ha hm ho]

/-- C6 counterexample: a fully successful external refresh from the
initial state loads the new handle and sets the load time, yet
`current_db_version_tag` still holds its initial `"N/A"` — refuting the
claim that a successful refresh updates the version tag away from
`"N/A"`. -/
theorem C6_counterexample :
    (download_and_load_database extConfig initialManagerState []
      envAllOk 1).state.mmdb_reader = some "/data/external-1.mmdb" ∧
    (download_and_load_database extConfig initialManagerState []
      envAllOk 1).state.last_db_update_time = some 1 ∧
    (download_and_load_database extConfig initialManagerState []
      envAllOk 1).state.current_db_version_tag = "N/A" := by
  decide

/-- C6 (amended): every refresh — successful or not — leaves
`current_db_version_tag` exactly as it was (the manager never assigns it
after construction, so it stays at its initial `"N/A"`), while every
successful refresh (one that opened a new handle) does set
`last_db_update_time` to the load time. -/
theorem C6_tag_never_updated_time_updated (c : Config) (st : ManagerState)
    (fs : FileSys) (env : FetchEnv) (t : Nat) :
    ((download_and_load_database c st fs env t).state.current_db_version_tag =
      st.current_db_version_tag) ∧
    (∀ p, Event.openDb p ∈ (download_and_load_database c st fs env t).trace →
      (download_and_load_database c st fs env t).state.last_db_update_time = some t) := by
  constructor
  · exact download_cases c st fs env t
      (fun r => r.state.current_db_version_tag = st.current_db_version_tag)
      (refreshExternal_tag c st fs env t) (refreshLocal_tag c st fs env t)
      (refreshVendor_tag c st fs env t) rfl
  · exact download_cases c st fs env t
      (fun r => ∀ p, Event.openDb p ∈ r.trace →
        r.state.last_db_update_time = some t)
      (fun p hE => refreshExternal_openDb_time c st fs env t p hE)
      (fun p hE => refreshLocal_openDb_time c st fs env t p hE)
      (fun p hE => refreshVendor_openDb_time c st fs env t p hE)
      (fun p hE => by simp [refreshNone] at hE)

/-- C6 witness: at a concrete successful refresh the tag is still the
initial `"N/A"` while the load time was set. -/
theorem C6_witness :
    (download_and_load_database extConfig initialManagerState []
      envAllOk 1).state.current_db_version_tag = "N/A" ∧
    (download_and_load_database extConfig initialManagerState []
      envAllOk 1).state.last_db_update_time = some 1 :=
  ⟨(C6_tag_never_updated_time_updated extConfig initialManagerState [] envAllOk 1).1.trans
      (by decide),
    (C6_tag_never_updated_time_updated extConfig initialManagerState [] envAllOk 1).2
      "/data/external-1.mmdb" (by decide)⟩

/-! ### C9 -/


theorem refreshExternal_pathInv (c : Config) (st : ManagerState) (fs : FileSys)
    (env : FetchEnv) (t : Nat) (p : String)
    (hp : (refreshExternal c st fs env t).state.mmdb_reader = some p) :
    (refreshExternal c st fs env t).state.current_db_file_path = some p := by
  rcases hd : env.downloadOk with _ | _
  · rw [refreshExternal_eq_dlFail c st fs env t hd] at hp ⊢
    exact Option.noConfusion hp
  · rcases ho : env.openOk with _ | _
    · rw [refreshExternal_eq_openFail c st fs env t hd ho] at hp ⊢
      exact Option.noConfusion hp
    · rw [refreshExternal_eq_success c st fs env t hd ho] at hp ⊢
      exact hp

theorem refreshLocal_pathInv (c : Config) (st : ManagerState) (fs : FileSys)
    (env : FetchEnv) (t : Nat) (p : String)
    (hp : (refreshLocal c st fs env t).state.mmdb_reader = some p) :
    (refreshLocal c st fs env t).state.current_db_file_path = some p := by
  rcases ho : env.openOk with _ | _
  · rw [refreshLocal_eq_fail c st fs env t ho] at hp ⊢
    exact Option.noConfusion hp
  · rw [refreshLocal_eq_success c st fs env t ho] at hp ⊢
    exact hp

theorem refreshVendor_pathInv (c : Config) (st : ManagerState) (fs : FileSys)
    (env : FetchEnv) (t : Nat) (p : String)
    (hp : (refreshVendor c st fs env t).state.mmdb_reader = some p) :
    (refreshVendor c st fs env t).state.current_db_file_path = some p := by
  rcases hd : env.downloadOk with _ | _
  · rw [refreshVendor_eq_dlFail c st fs env t hd] at hp ⊢
    exact Option.noConfusion hp
  · rcases ha : env.archiveOk with _ | _
    · rw [refreshVendor_eq_archiveFail c st fs env t hd ha] at hp ⊢
      exact Option.noConfusion hp
    · rcases hm : env.members.find? (fun m => endsWithStr m ".mmdb") with _ | m0
      · rw [refreshVendor_eq_noMember c st fs env t hd ha hm] at hp ⊢
        exact Option.noConfusion hp
      · rcases ho : env.openOk with _ | _
        · rw [refreshVendor_eq_openFail c st fs env t m0 hd ha hm ho] at hp ⊢
          exact Option.noConfusion hp
        · rw [refreshVendor_eq_success c st fs env t m0 hd ha hm ho] at hp ⊢
          exact hp

/-- C9 counterexample: with `/data/old.mmdb` loaded, a refresh whose
download fails drops the reader but leaves `current_db_file_path` still
naming the old file — the handle is null while the path is not, so the
claimed invariant (path matches backing file, or both null) is violated
after this `download_and_load_database` call. -/
theorem C9_counterexample :
    ¬ managerPathInv (download_and_load_database extConfig loadedState
      ["/data/old.mmdb"] envDlFail 1).state := by
  have hst : (download_and_load_database extConfig loadedState ["/data/old.mmdb"]
      envDlFail 1).state =
      { mmdb_reader := none
        last_db_update_time := some 0
        current_db_version_tag := "N/A"
        current_db_file_path := some "/data/old.mmdb" } := by
    decide
  intro h
  rw [hst] at h
  rcases h with ⟨p, hp, _⟩ | ⟨_, hq⟩
  · exact Option.noConfusion hp
  · exact Option.noConfusion hq

/-- C9 (amended): the invariant holds in the initial state (both fields
null), and one direction survives every `download_and_load_database`
call: whenever the handle is non-null after the call, the active file
path names exactly the file backing it.  The other direction fails after
a failed refresh, which nulls the handle but leaves the stale path (see
the counterexample). -/
theorem C9_loaded_handle_path_agree (c : Config) (st : ManagerState) (fs : FileSys)
    (env : FetchEnv) (t : Nat) :
    (initialManagerState.mmdb_reader = none ∧
      initialManagerState.current_db_file_path = none) ∧
    (∀ p, (download_and_load_database c st fs env t).state.mmdb_reader = some p →
      (download_and_load_database c st fs env t).state.current_db_file_path = some p) := by
  refine ⟨⟨rfl, rfl⟩, ?hinv⟩
  exact download_cases c st fs env t
    (fun r => ∀ p, r.state.mmdb_reader = some p →
      r.state.current_db_file_path = some p)
    (fun p hp => refreshExternal_pathInv c st fs env t p hp)
    (fun p hp => refreshLocal_pathInv c st fs env t p hp)
    (fun p hp => refreshVendor_pathInv c st fs env t p hp)
    (fun p hp => Option.noConfusion hp)

/-- C9 witness: after a concrete successful refresh the path names the
file backing the new handle. -/
theorem C9_witness :
    (download_and_load_database extConfig initialManagerState []
      envAllOk 1).state.current_db_file_path = some "/data/external-1.mmdb" :=
  (C9_loaded_handle_path_agree extConfig initialManagerState [] envAllOk 1).2
    "/data/external-1.mmdb" (by decide)

/-! ### C7 -/

theorem geoLookupGet_some_ne_unavailable (get : String → Option Json)
    (validIp : Bool) (resolved : Option String) (ip lang : String) :
    geoLookupGet (some get) validIp resolved ip lang ≠ GeoResult.unavailable := by
  intro h
  simp only [geoLookupGet] at h
  split at h
  · exact GeoResult.noConfusion h
  · split at h
    · exact GeoResult.noConfusion h
    · split at h
      · exact GeoResult.noConfusion h
      · exact GeoResult.noConfusion h

/-- C7: the lookup handler distinguishes Unavailable from NotFound.  The
result is Unavailable exactly when no reader is loaded (503); with a
reader loaded and a valid IP whose point lookup yields no record the
result is NotFound (404); a NotFound result can only arise with a reader
loaded; and the two outcomes map to the distinct status codes 503 and
404. -/
theorem C7_unavailable_vs_notfound (reader : Option (String → Option Json))
    (validIp : Bool) (resolved : Option String) (ip lang : String) :
    (geoLookupGet reader validIp resolved ip lang = GeoResult.unavailable ↔
      reader = none) ∧
    (∀ get, reader = some get → validIp = true → get ip = none →
      geoLookupGet reader validIp resolved ip lang = GeoResult.notFound) ∧
    (geoLookupGet reader validIp resolved ip lang = GeoResult.notFound →
      reader ≠ none) ∧
    statusCode GeoResult.unavailable = 503 ∧ statusCode GeoResult.notFound = 404 := by
  refine ⟨⟨?hto, ?hof⟩, ?hnf, ?hback, rfl, rfl⟩
  · intro h
    rcases hr : reader with _ | get
    · rfl
    · rw [hr] at h
      exact absurd h (geoLookupGet_some_ne_unavailable get validIp resolved ip lang)
  · intro h
    rw [h]
    rfl
  · intro get hr hv hg
    rw [hr]
    simp only [geoLookupGet, hv, if_true, hg]
  · intro h hnone
    rw [hnone] at h
    exact GeoResult.noConfusion h

/-- C7 witness: with no reader the handler answers Unavailable; with a
reader whose point lookup finds nothing it answers NotFound. -/
theorem C7_witness :
    geoLookupGet none true none "8.8.8.8" "en" = GeoResult.unavailable ∧
    geoLookupGet (some (fun _ => none)) true none "8.8.8.8" "en" =
      GeoResult.notFound :=
  ⟨(C7_unavailable_vs_notfound none true none "8.8.8.8" "en").1.mpr rfl,
    (C7_unavailable_vs_notfound (some (fun _ => none)) true none "8.8.8.8" "en").2.1
      (fun _ => none) rfl rfl rfl⟩

/-! ### C8 -/


theorem truthyFilter_eq (z : Option Json) :
    truthyFilter z = if truthyO z = true then z else none := by
  rcases z with _ | v
  · simp [truthyFilter, truthyO]
  · by_cases ht : truthyJ v = true <;> simp [truthyFilter, truthyO, ht]

theorem truthyFilter_of_truthy (z : Option Json) (h : truthyO z = true) :
    truthyFilter z = z := by
  rcases z with _ | v
  · simp [truthyO] at h
  · simp only [truthyO] at h
    simp [truthyFilter, h]

theorem truthyFilter_pyOr (x y : Option Json) :
    truthyFilter (pyOr x y) =
      if truthyO x = true then truthyFilter x else truthyFilter y := by
  rcases x with _ | v
  · simp [pyOr, truthyO]
  · by_cases ht : truthyJ v = true <;> simp [pyOr, truthyO, ht]

/-- The localizer's `or`-chain, filtered by the final truthiness guard,
computes exactly the specification's resolution order. -/
theorem selectedName_resolveSpec (names : List (String × Json)) (lang fb : String) :
    truthyFilter (selectedName names lang fb) = resolveNameSpec names lang fb := by
  unfold selectedName resolveNameSpec
  rw [truthyFilter_pyOr]
  by_cases h1 : truthyO (names.lookup lang) = true
  · rw [if_pos h1, if_pos h1, truthyFilter_of_truthy _ h1]
  · rw [if_neg h1, if_neg h1, truthyFilter_pyOr]
    by_cases h2 : truthyO (names.lookup fb) = true
    · rw [if_pos h2, if_pos h2, truthyFilter_of_truthy _ h2]
    · rw [if_neg h2, if_neg h2, truthyFilter_eq]

/-- Unfolding equation: names dictionary present and the selected name
truthy — a `"name"` entry is written. -/
theorem filter_names_obj_names_some (lang fb : String)
    (fields names : List (String × Json)) (v : Json)
    (h : fields.lookup "names" = some (Json.obj names))
    (hsel : selectedName names lang fb = some v) (ht : truthyJ v = true) :
    filter_names_by_lang lang fb (Json.obj fields) =
      Json.obj (dictInsert ((fields.filter (fun kv => kv.1 ≠ "names")).map
        (fun kv => (kv.1, filter_names_by_lang lang fb kv.2))) "name" v) := by
  rw [filter_names_obj_names lang fb fields names h]
  simp only [hsel, ht, if_true]

/-- Unfolding equation: names dictionary present but the selected name
falsy — no `"name"` entry is written. -/
theorem filter_names_obj_names_falsy (lang fb : String)
    (fields names : List (String × Json)) (v : Json)
    (h : fields.lookup "names" = some (Json.obj names))
    (hsel : selectedName names lang fb = some v) (ht : truthyJ v = false) :
    filter_names_by_lang lang fb (Json.obj fields) =
      Json.obj ((fields.filter (fun kv => kv.1 ≠ "names")).map
        (fun kv => (kv.1, filter_names_by_lang lang fb kv.2))) := by
  rw [filter_names_obj_names lang fb fields names h]
  simp only [hsel, ht, Bool.false_eq_true, if_false]

/-- Unfolding equation: names dictionary present but nothing selectable at
all (empty names dictionary). -/
theorem filter_names_obj_names_none (lang fb : String)
    (fields names : List (String × Json))
    (h : fields.lookup "names" = some (Json.obj names))
    (hsel : selectedName names lang fb = none) :
    filter_names_by_lang lang fb (Json.obj fields) =
      Json.obj ((fields.filter (fun kv => kv.1 ≠ "names")).map
        (fun kv => (kv.1, filter_names_by_lang lang fb kv.2))) := by
  rw [filter_names_obj_names lang fb fields names h]
  simp only [hsel]

/-- C8: the localizer implements the specification.  Wherever a mapping
holds a language-code-keyed `"names"` dictionary, that field is replaced
by a single `"name"` resolved per the specification order (requested
language, else fallback, else first-encountered available name, else the
field is omitted — `resolveNameSpec`); every other mapping and every
sequence is traversed recursively with all other structure unchanged; and
the function is total by construction. -/
theorem C8_localizer_follows_spec (lang fb : String) :
    (∀ fields names v, fields.lookup "names" = some (Json.obj names) →
      resolveNameSpec names lang fb = some v →
      filter_names_by_lang lang fb (Json.obj fields) =
        Json.obj (dictInsert ((fields.filter (fun kv => kv.1 ≠ "names")).map
          (fun kv => (kv.1, filter_names_by_lang lang fb kv.2))) "name" v)) ∧
    (∀ fields names, fields.lookup "names" = some (Json.obj names) →
      resolveNameSpec names lang fb = none →
      filter_names_by_lang lang fb (Json.obj fields) =
        Json.obj ((fields.filter (fun kv => kv.1 ≠ "names")).map
          (fun kv => (kv.1, filter_names_by_lang lang fb kv.2)))) ∧
    (∀ fields, (∀ names, fields.lookup "names" ≠ some (Json.obj names)) →
      filter_names_by_lang lang fb (Json.obj fields) =
        Json.obj (fields.map (fun kv => (kv.1, filter_names_by_lang lang fb kv.2)))) ∧
    (∀ xs, filter_names_by_lang lang fb (Json.arr xs) =
      Json.arr (xs.map (filter_names_by_lang lang fb))) ∧
    filter_names_by_lang lang fb Json.null = Json.null ∧
    (∀ b, filter_names_by_lang lang fb (Json.bool b) = Json.bool b) ∧
    (∀ n, filter_names_by_lang lang fb (Json.num n) = Json.num n) ∧
    (∀ s, filter_names_by_lang lang fb (Json.str s) = Json.str s) := by
  refine ⟨?hsome, ?hnone2, ?hplain, ?harr, ?hnull, ?hbool, ?hnum, ?hstr⟩
  · intro fields names v h hres
    have hsel := selectedName_resolveSpec names lang fb
    rw [hres] at hsel
    rcases hs : selectedName names lang fb with _ | w
    · rw [hs] at hsel
      exact absurd hsel (by simp [truthyFilter])
    · rw [hs] at hsel
      by_cases ht : truthyJ w = true
      · have hvw : w = v := by
          simp only [truthyFilter, ht, if_true] at hsel
          exact Option.some.inj hsel
        subst hvw
        exact filter_names_obj_names_some lang fb fields names w h hs ht
      · exfalso
        simp only [truthyFilter, ht, Bool.false_eq_true, if_false] at hsel
        exact Option.noConfusion hsel
  · intro fields names h hres
    have hsel := selectedName_resolveSpec names lang fb
    rw [hres] at hsel
    rcases hs : selectedName names lang fb with _ | w
    · exact filter_names_obj_names_none lang fb fields names h hs
    · rw [hs] at hsel
      by_cases ht : truthyJ w = true
      · exfalso
        simp only [truthyFilter, ht, if_true] at hsel
        exact Option.noConfusion hsel
      · have htF : truthyJ w = false := by
          rcases hb : truthyJ w with _ | _
          · rfl
          · exact absurd hb ht
        exact filter_names_obj_names_falsy lang fb fields names w h hs htF
  · intro fields h
    exact filter_names_obj_plain lang fb fields h
  · intro xs
    exact filter_names_arr lang fb xs
  · rw [filter_names_by_lang]
  · intro b
    rw [filter_names_by_lang]
  · intro n
    rw [filter_names_by_lang]
  · intro s
    rw [filter_names_by_lang]


/-- C8 witness: on the concrete city record, requesting German resolves
to the German name and the `"names"` field is replaced by `"name"`. -/
theorem C8_witness :
    filter_names_by_lang "de" "en" (Json.obj cityFields) =
      Json.obj (dictInsert ((cityFields.filter (fun kv => kv.1 ≠ "names")).map
        (fun kv => (kv.1, filter_names_by_lang "de" "en" kv.2))) "name"
        (Json.str "Stadt")) :=
  (C8_localizer_follows_spec "de" "en").1 cityFields cityNames (Json.str "Stadt")
    rfl rfl

/-! ### C10 -/

theorem lookup_map_of_none (l : List (String × Json)) (g : Json → Json) (k : String)
    (h : l.lookup k = none) :
    (l.map (fun kv => (kv.1, g kv.2))).lookup k = none := by
  induction l with
  | nil => rfl
  | cons a tl ih =>
    obtain ⟨a1, a2⟩ := a
    simp only [List.lookup, List.map] at h ⊢
    rcases hbk : (k == a1) with _ | _
    · simp only [hbk] at h ⊢
      exact ih h
    · simp only [hbk] at h
      exact Option.noConfusion h

theorem lookup_filter_self (l : List (String × Json)) (k : String) :
    (l.filter (fun kv => kv.1 ≠ k)).lookup k = none := by
  induction l with
  | nil => rfl
  | cons a tl ih =>
    obtain ⟨a1, a2⟩ := a
    by_cases ha : a1 = k
    · rw [List.filter_cons, if_neg (by simp [ha])]
      exact ih
    · rw [List.filter_cons, if_pos (by simp [ha]), List.lookup_cons]
      have hbk : (k == a1) = false := by
        rw [beq_eq_false_iff_ne]
        exact fun he => ha he.symm
      simp only [hbk]
      exact ih

theorem lookup_filter_of_none (l : List (String × Json)) (p : String × Json → Bool)
    (k : String) (h : l.lookup k = none) : (l.filter p).lookup k = none := by
  induction l with
  | nil => rfl
  | cons a tl ih =>
    obtain ⟨a1, a2⟩ := a
    rw [List.lookup_cons] at h
    rcases hbk : (k == a1) with _ | _
    · simp only [hbk] at h
      rw [List.filter_cons]
      rcases hp : p (a1, a2) with _ | _
      · rw [if_neg (by simp [hp])]
        exact ih h
      · rw [if_pos (by simp [hp]), List.lookup_cons]
        simp only [hbk]
        exact ih h
    · simp only [hbk] at h
      exact Option.noConfusion h

/-- C10: falsy name values are treated as absent.  A falsy entry under the
requested language makes resolution fall through to the fallback chain; a
falsy fallback as well makes it fall through to the first-encountered
value; and when the finally selected name is falsy the localizer removes
the `"names"` field without writing any `"name"` key (provided the input
mapping had none of its own). -/
theorem C10_falsy_names_treated_absent (lang fb : String) :
    (∀ names v, names.lookup lang = some v → truthyJ v = false →
      selectedName names lang fb =
        pyOr (names.lookup fb) (names.head?.map Prod.snd)) ∧
    (∀ names, truthyO (names.lookup lang) = false →
      truthyO (names.lookup fb) = false →
      selectedName names lang fb = names.head?.map Prod.snd) ∧
    (∀ fields names, fields.lookup "names" = some (Json.obj names) →
      truthyO (selectedName names lang fb) = false →
      filter_names_by_lang lang fb (Json.obj fields) =
        Json.obj ((fields.filter (fun kv => kv.1 ≠ "names")).map
          (fun kv => (kv.1, filter_names_by_lang lang fb kv.2))) ∧
      ((fields.filter (fun kv => kv.1 ≠ "names")).map
        (fun kv => (kv.1, filter_names_by_lang lang fb kv.2))).lookup "names" =
          none ∧
      (fields.lookup "name" = none →
        ((fields.filter (fun kv => kv.1 ≠ "names")).map
          (fun kv => (kv.1, filter_names_by_lang lang fb kv.2))).lookup "name" =
            none)) := by
  refine ⟨?hfall, ?hfirst, ?homit⟩
  · intro names v h ht
    unfold selectedName
    rw [h]
    simp [pyOr, ht]
  · intro names h1 h2
    unfold selectedName
    rcases l1 : names.lookup lang with _ | v1
    · rcases l2 : names.lookup fb with _ | v2
      · simp [pyOr]
      · rw [l2] at h2
        simp only [truthyO] at h2
        simp [pyOr, h2]
    · rw [l1] at h1
      simp only [truthyO] at h1
      rcases l2 : names.lookup fb with _ | v2
      · simp [pyOr, h1]
      · rw [l2] at h2
        simp only [truthyO] at h2
        simp [pyOr, h1, h2]
  · intro fields names h hfalsy
    refine ⟨?hshape, ?hnames, ?hname⟩
    · rcases hs : selectedName names lang fb with _ | w
      · exact filter_names_obj_names_none lang fb fields names h hs
      · rw [hs] at hfalsy
        simp only [truthyO] at hfalsy
        exact filter_names_obj_names_falsy lang fb fields names w h hs hfalsy
    · exact lookup_map_of_none _ _ _ (lookup_filter_self fields "names")
    · intro hname
      exact lookup_map_of_none _ _ _
        (lookup_filter_of_none fields _ "name" hname)


/-- C10 witness: with the only name being an empty string, resolution
falls through and the localizer removes `"names"` without adding
`"name"`. -/
theorem C10_witness :
    selectedName falsyNames "de" "en" =
      pyOr (falsyNames.lookup "en") (falsyNames.head?.map Prod.snd) ∧
    filter_names_by_lang "de" "en" (Json.obj falsyFields) =
      Json.obj ((falsyFields.filter (fun kv => kv.1 ≠ "names")).map
        (fun kv => (kv.1, filter_names_by_lang "de" "en" kv.2))) ∧
    ((falsyFields.filter (fun kv => kv.1 ≠ "names")).map
      (fun kv => (kv.1, filter_names_by_lang "de" "en" kv.2))).lookup "name" =
        none :=
  ⟨(C10_falsy_names_treated_absent "de" "en").1 falsyNames (Json.str "") rfl rfl,
    ((C10_falsy_names_treated_absent "de" "en").2.2 falsyFields falsyNames rfl rfl).1,
    ((C10_falsy_names_treated_absent "de" "en").2.2 falsyFields falsyNames rfl rfl).2.2
      rfl⟩

end Gunter
